/-
Verification of the YouLearn notebook backend (src/backend/src/youlearn).

This file gives a shallow embedding of the pure logic of the relevant
modules and proves or refutes the frozen claims about it:
  * modes.py        — mode detection (detect_mode)
  * notebook_tools.py — the sandboxed mutation surface (_safe_path,
                      read_file, create_lecture, create_session)
  * factcheck.py    — the fact-check background pass and its delta scan
  * progress.py     — the progress background pass and its delta scan
  * context.py      — metadata extraction and context assembly

Strings are modelled as List Char; Python string helpers (strip, lower,
startswith, replace, in, split) are embedded below.  The filesystem is
modelled as a function from segment paths to optional contents; directory
listings that the code iterates are modelled as lists of entries, with
Python sorted(...) embedded as an insertion sort by the lexicographic
order on names.  Wall-clock times and mtimes are naturals.
-/
import Mathlib

set_option maxHeartbeats 1000000

/-! ## Python string primitives -/

/-- Python str whitespace predicate, restricted to the six ASCII
whitespace characters (str.strip and regex \s also accept some Unicode
whitespace; the notebook text this development reasons about is ASCII,
where the two notions agree). -/
def pyIsSpace (c : Char) : Bool :=
  c = ' ' || c = '\t' || c = '\n' || c = '\r' || c = '\x0b' || c = '\x0c'

/-- Python str.strip(): remove leading and trailing whitespace. -/
def pyStrip (s : List Char) : List Char :=
  ((s.dropWhile pyIsSpace).reverse.dropWhile pyIsSpace).reverse

/-- Python str.lower(), restricted to the ASCII case mapping. -/
def pyLower (s : List Char) : List Char := s.map Char.toLower

/-! ## modes.py — detect_mode -/

/-- The Mode dataclass of modes.py: mode name plus the user's message with
the command prefix stripped. -/
structure PyMode where
  name : List Char
  userMessage : List Char
deriving DecidableEq, Repr

/-- The tuple ("lec", "rev", "work", "done") iterated by detect_mode. -/
def modeTokens : List (List Char) := [ "lec".data, "rev".data, "work".data, "done".data]

/-- detect_mode of modes.py: strip the message, lower-case it, scan the
four reserved tokens in order for a prefix match of "/" + token, and on a
match return that mode with the remainder (after len(token)+1 characters)
stripped; otherwise the default mode with the stripped message. -/
def detectMode (latestMessage : List Char) : PyMode :=
  let stripped := pyStrip latestMessage
  let lower := pyLower stripped
  (modeTokens.findSome? (fun tok =>
    if ('/' :: tok).isPrefixOf lower then
      some { name := tok, userMessage := pyStrip (stripped.drop (tok.length + 1)) }
    else none)).getD { name := "default".data, userMessage := stripped }

/-- Restatement of the specification's description of mode detection: a
fixed priority chain of case-insensitive prefix checks of the four
reserved command tokens against the trimmed message, returning the
remainder after the token trimmed, with a default fallback; exactly one
branch is ever taken. -/
def detectModeSpec (msg : List Char) : PyMode :=
  let t := pyStrip msg
  let l := pyLower t
  if ( "/lec".data).isPrefixOf l then ⟨ "lec".data, pyStrip (t.drop 4)⟩
  else if ( "/rev".data).isPrefixOf l then ⟨ "rev".data, pyStrip (t.drop 4)⟩
  else if ( "/work".data).isPrefixOf l then ⟨ "work".data, pyStrip (t.drop 5)⟩
  else if ( "/done".data).isPrefixOf l then ⟨ "done".data, pyStrip (t.drop 5)⟩
  else ⟨ "default".data, t⟩

/-- C8: mode detection checks the four reserved command tokens in a fixed
priority order against the trimmed, lower-cased message; on a
case-insensitive prefix match it returns that mode with the remainder
after the token, trimmed; otherwise the default mode with the full
trimmed message; exactly one mode is selected (detect_mode agrees with
the priority-chain specification on every message).  In particular
"/Work hw2 please" yields mode work with residual "hw2 please", and
"hello" yields mode default with residual "hello". -/
theorem C8_detect_mode :
    (∀ msg : List Char, detectMode msg = detectModeSpec msg) ∧
    detectMode ( "/Work hw2 please".data) = ⟨ "work".data, "hw2 please".data⟩ ∧
    detectMode ( "hello".data) = ⟨ "default".data, "hello".data⟩ := by
  refine ⟨?_, by decide, by decide⟩
  intro msg
  simp only [detectMode, detectModeSpec, modeTokens, List.findSome?]
  split_ifs <;> rfl

/-! ## notebook_tools.py — the path sandbox (_safe_path, read_file)

Absolute POSIX paths are modelled as lists of name segments.  A path
string is parsed into segments by splitting on '/', dropping empty and
"." segments (as pathlib does on construction); Path.resolve() is the
fold that pops a segment on ".." (and stays at the root when already
there).  str(path) renders "/" ++ segment ++ "/" ++ segment ++ …, and
the sandbox check of _safe_path is the str.startswith test the code
performs on the rendered strings. -/

/-- One path segment (a file or directory name). -/
abbrev Seg := List Char

/-- Split a POSIX path string into segments, dropping empty and "."
segments as pathlib PurePath construction does.  ".." segments are
kept (they are only resolved by Path.resolve). -/
def splitPath (p : List Char) : List Seg :=
  ((p.splitOn '/').filter (fun s => s ≠ [] ∧ s ≠ [ '.']))

/-- Whether a Python path string is absolute. -/
def pyIsAbs (p : List Char) : Bool := p.head? = some '/'

/-- pathlib's `base / p`: if p is absolute it replaces the base entirely,
otherwise its segments are appended to the base. -/
def joinUnder (base : List Seg) (p : List Char) : List Seg :=
  if pyIsAbs p then splitPath p else base ++ splitPath p

/-- Path.resolve() on an absolute segment list (no symlinks in the
model): ".." pops the last segment and is a no-op at the root. -/
def resolveSegs (segs : List Seg) : List Seg :=
  segs.foldl (fun acc s => if s = [ '.', '.'] then acc.dropLast else acc ++ [s]) []

/-- str() of an absolute path given by its segments. -/
def renderPath (segs : List Seg) : List Char :=
  segs.foldl (fun acc s => acc ++ '/' :: s) []

/-- NotebookTools._safe_path: resolve the argument against the class
directory and accept it iff str(target).startswith(str(class_dir)) —
exactly the string-prefix test the code performs. -/
def safePath (classDir : List Seg) (path : List Char) : Option (List Seg) :=
  let target := resolveSegs (joinUnder classDir path)
  if (renderPath classDir).isPrefixOf (renderPath target) then some target else none

/-- A resolved path lies inside the workspace root iff the root's
segments are a prefix of its segments (the claim's "resolves to a
location still inside that root"). -/
def insideRoot (classDir target : List Seg) : Prop := classDir <+: target

/-- A filesystem: a partial map from resolved segment paths to file
contents. -/
def FS := List Seg → Option (List Char)

/-- NotebookTools.read_file: sandbox check, then existence check, then
the file's contents. -/
def readFileTool (fs : FS) (classDir : List Seg) (path : List Char) : List Char :=
  match safePath classDir path with
  | none => "Error: path escapes notebook directory".data
  | some target =>
    match fs target with
    | none => "Error: file not found: ".data ++ path
    | some content => content

/-- Decimal rendering of a natural (str(n) / len(...) in Python). -/
def pyNatStr (n : Nat) : List Char := (Nat.repr n).data

/-! ## Lexicographic path order and Python sorted(...)

Python sorts Path objects by their string form; entries of one directory
compare by name, code-point-wise.  sorted(...) is embedded as an
insertion sort by a key function. -/

/-- Code-point lexicographic "less or equal" on strings (the order
Python sorted uses on the names of one directory). -/
def lexLe : List Char → List Char → Bool
  | [], _ => true
  | _ :: _, [] => false
  | a :: as, b :: bs =>
    if a.toNat < b.toNat then true
    else if b.toNat < a.toNat then false
    else lexLe as bs

theorem lexLe_total (a : List Char) : ∀ b, lexLe a b = true ∨ lexLe b a = true := by
  induction a with
  | nil => intro b; left; cases b <;> rfl
  | cons x xs ih =>
    intro b
    cases b with
    | nil => right; rfl
    | cons y ys =>
      simp only [lexLe]
      rcases Nat.lt_trichotomy x.toNat y.toNat with h | h | h
      · left
        simp [h]
      · rcases ih ys with h2 | h2
        · left
          simp [h, h2]
        · right
          simp [h, h2]
      · right
        simp [h]

theorem lexLe_trans (a : List Char) : ∀ b c, lexLe a b = true → lexLe b c = true →
    lexLe a c = true := by
  induction a with
  | nil => intro b c _ _; cases c <;> rfl
  | cons x xs ih =>
    intro b c hab hbc
    cases b with
    | nil => simp [lexLe] at hab
    | cons y ys =>
      cases c with
      | nil => simp [lexLe] at hbc
      | cons z zs =>
        simp only [lexLe] at hab hbc ⊢
        by_cases h1 : x.toNat < y.toNat
        · by_cases h2 : y.toNat < z.toNat
          · rw [if_pos (show x.toNat < z.toNat from by omega)]
          · by_cases h3 : z.toNat < y.toNat
            · rw [if_neg h2, if_pos h3] at hbc
              exact absurd hbc (by simp)
            · rw [if_pos (show x.toNat < z.toNat from by omega)]
        · by_cases h4 : y.toNat < x.toNat
          · rw [if_neg h1, if_pos h4] at hab
            exact absurd hab (by simp)
          · rw [if_neg h1, if_neg h4] at hab
            by_cases h2 : y.toNat < z.toNat
            · rw [if_pos (show x.toNat < z.toNat from by omega)]
            · by_cases h3 : z.toNat < y.toNat
              · rw [if_neg h2, if_pos h3] at hbc
                exact absurd hbc (by simp)
              · rw [if_neg h2, if_neg h3] at hbc
                rw [if_neg (show ¬ x.toNat < z.toNat from by omega),
                  if_neg (show ¬ z.toNat < x.toNat from by omega)]
                exact ih ys zs hab hbc

/-- Insert into a key-sorted list (helper of the sorted(...) model). -/
def insertByKey {α : Type} (key : α → List Char) (x : α) : List α → List α
  | [] => [x]
  | y :: ys => if lexLe (key x) (key y) then x :: y :: ys else y :: insertByKey key x ys

/-- Python sorted(...) by a string key (insertion sort; stable, and the
directory names it is applied to are pairwise distinct anyway). -/
def sortByKey {α : Type} (key : α → List Char) : List α → List α
  | [] => []
  | x :: xs => insertByKey key x (sortByKey key xs)

theorem mem_insertByKey {α : Type} (key : α → List Char) (x a : α) (l : List α) :
    a ∈ insertByKey key x l ↔ a = x ∨ a ∈ l := by
  induction l with
  | nil => simp [insertByKey]
  | cons y ys ih =>
    simp only [insertByKey]
    split_ifs with h
    · simp
    · simp only [List.mem_cons, ih]
      tauto

theorem mem_sortByKey {α : Type} (key : α → List Char) (a : α) (l : List α) :
    a ∈ sortByKey key l ↔ a ∈ l := by
  induction l with
  | nil => simp [sortByKey]
  | cons x xs ih =>
    simp only [sortByKey, mem_insertByKey, List.mem_cons, ih]

theorem pairwise_insertByKey {α : Type} (key : α → List Char) (x : α) {l : List α}
    (h : List.Pairwise (fun a b => lexLe (key a) (key b) = true) l) :
    List.Pairwise (fun a b => lexLe (key a) (key b) = true) (insertByKey key x l) := by
  induction l with
  | nil => simp [insertByKey]
  | cons y ys ih =>
    rcases List.pairwise_cons.mp h with ⟨hy, hys⟩
    simp only [insertByKey]
    split_ifs with hxy
    · refine List.Pairwise.cons ?_ (List.Pairwise.cons hy hys)
      intro z hz
      rcases List.mem_cons.mp hz with rfl | hz2
      · exact hxy
      · exact lexLe_trans (key x) (key y) (key z) hxy (hy z hz2)
    · refine List.Pairwise.cons ?_ (ih hys)
      intro z hz
      rcases (mem_insertByKey key x z ys).mp hz with hzx | hz2
      · rw [hzx]
        rcases lexLe_total (key x) (key y) with h1 | h1
        · exact absurd h1 hxy
        · exact h1
      · exact hy z hz2

theorem pairwise_sortByKey {α : Type} (key : α → List Char) (l : List α) :
    List.Pairwise (fun a b => lexLe (key a) (key b) = true) (sortByKey key l) := by
  induction l with
  | nil => exact List.Pairwise.nil
  | cons x xs ih => exact pairwise_insertByKey key x ih

/-- NotebookTools.write_file: sandbox check, then create parents (a
no-op on the map model) and overwrite the full content. -/
def writeFileTool (fs : FS) (classDir : List Seg) (path content : List Char) :
    List Char × FS :=
  match safePath classDir path with
  | none => ( "Error: path escapes notebook directory".data, fs)
  | some target =>
    ( "Written: ".data ++ path ++ " (".data ++ pyNatStr content.length ++
        " chars)".data,
      fun q => if q = target then some content else fs q)

/-- A directory lister: the entries (name, is_dir) of a directory, or
none when the target is not a directory. -/
def DirFS := List Seg → Option (List (List Char × Bool))

/-- NotebookTools.list_files: sandbox check, directory check, then the
sorted entries, hidden ones skipped, tagged "d "/"f ". -/
def listFilesTool (dirs : DirFS) (classDir : List Seg) (subdir : List Char) : List Char :=
  match safePath classDir subdir with
  | none => "Error: path escapes notebook directory".data
  | some target =>
    match dirs target with
    | none => "Error: not a directory: ".data ++ subdir
    | some entries =>
      let lines := (sortByKey (fun e => e.1) entries).filterMap (fun e =>
        if ( ".".data).isPrefixOf e.1 then none
        else some ((if e.2 then "d ".data else "f ".data) ++ e.1))
      if lines.isEmpty then "(empty directory)".data
      else List.intercalate [Char.ofNat 10] lines

/-- The class directory used for the concrete sandbox scenarios:
/classes/Math-104. -/
def mRoot : List Seg := [ "classes".data, "Math-104".data]

/-- A sibling-directory path that the prefix check wrongly admits:
../Math-104-extra/secret.tex resolves to /classes/Math-104-extra/… -/
def siblingAttack : List Char := "../Math-104-extra/secret.tex".data

/-- C1 (failing input): the sandbox is a string-prefix test, so
"../Math-104-extra/secret.tex" — which resolves to the sibling
directory /classes/Math-104-extra, outside the workspace root
/classes/Math-104 — is accepted by _safe_path, and read_file then
performs filesystem I/O on it (its result depends on the filesystem).
The two spec examples do hold, for read, write and list alike (they
share _safe_path): "../../etc/passwd" and "/etc/passwd" fail with the
path-violation error for every filesystem state and with the
filesystem untouched, i.e. with no filesystem access. -/
theorem C1_sandbox_prefix_bug :
    (∃ target, safePath mRoot siblingAttack = some target ∧ ¬ insideRoot mRoot target) ∧
    (∀ fs : FS, readFileTool fs mRoot ( "../../etc/passwd".data) =
      "Error: path escapes notebook directory".data) ∧
    (∀ fs : FS, readFileTool fs mRoot ( "/etc/passwd".data) =
      "Error: path escapes notebook directory".data) ∧
    (∀ (fs : FS) (content : List Char) (p : List Char),
      p = "../../etc/passwd".data ∨ p = "/etc/passwd".data →
      writeFileTool fs mRoot p content =
        ( "Error: path escapes notebook directory".data, fs)) ∧
    (∀ (dirs : DirFS) (p : List Char),
      p = "../../etc/passwd".data ∨ p = "/etc/passwd".data →
      listFilesTool dirs mRoot p = "Error: path escapes notebook directory".data) := by
  have h1 : safePath mRoot ( "../../etc/passwd".data) = none := by decide
  have h2 : safePath mRoot ( "/etc/passwd".data) = none := by decide
  refine ⟨⟨[ "classes".data, "Math-104-extra".data, "secret.tex".data], by decide, ?_⟩,
    ?_, ?_, ?_, ?_⟩
  · intro h
    rcases h with ⟨t, ht⟩
    have := congrArg (fun l => l.get? 1) ht
    simp [mRoot] at this
  · intro fs
    simp [readFileTool, h1]
  · intro fs
    simp [readFileTool, h2]
  · rintro fs content p (rfl | rfl)
    · simp [writeFileTool, h1]
    · simp [writeFileTool, h2]
  · rintro dirs p (rfl | rfl)
    · simp [listFilesTool, h1]
    · simp [listFilesTool, h2]

/-! ## Python str.replace / `in` on List Char

str.replace scans left to right: at each position, if the pattern is a
prefix it emits the replacement and continues after the pattern,
otherwise it keeps one character.  countOcc is str.count with the same
non-overlapping left-to-right scan.  Both are used with the (nonempty)
marker and placeholder literals of notebook_tools.py. -/

/-- The scan of str.replace, fuelled so that it computes by structural
recursion (the fuel is the input length; every step consumes at least
one character, so it never runs out). -/
def listReplaceAux (pat repl : List Char) : Nat → List Char → List Char
  | 0, s => s
  | _ + 1, [] => []
  | fuel + 1, c :: t =>
    if pat.isPrefixOf (c :: t) then
      repl ++ listReplaceAux pat repl fuel (t.drop (pat.length - 1))
    else
      c :: listReplaceAux pat repl fuel t

/-- Python str.replace(pat, repl) for a nonempty pattern (all
occurrences, non-overlapping, left to right). -/
def listReplace (pat repl s : List Char) : List Char :=
  listReplaceAux pat repl s.length s

theorem listReplaceAux_congr (pat repl : List Char) :
    ∀ (f1 f2 : Nat) (s : List Char), s.length ≤ f1 → s.length ≤ f2 →
      listReplaceAux pat repl f1 s = listReplaceAux pat repl f2 s := by
  intro f1
  induction f1 with
  | zero =>
    intro f2 s h1 _
    have hs : s = [] := List.length_eq_zero.mp (Nat.le_zero.mp h1)
    subst hs
    cases f2 <;> rfl
  | succ f1 ih =>
    intro f2 s h1 h2
    cases s with
    | nil => cases f2 <;> rfl
    | cons c t =>
      cases f2 with
      | zero => simp at h2
      | succ f2 =>
        simp only [listReplaceAux]
        simp only [List.length_cons] at h1 h2
        have hd : (t.drop (pat.length - 1)).length ≤ t.length := by
          rw [List.length_drop]
          omega
        by_cases hp : pat.isPrefixOf (c :: t) = true
        · rw [hp]
          simp only [if_true]
          rw [ih f2 (t.drop (pat.length - 1)) (by omega) (by omega)]
        · simp only [Bool.not_eq_true] at hp
          rw [hp]
          simp only [Bool.false_eq_true, if_false]
          rw [ih f2 t (by omega) (by omega)]

theorem listReplace_nil (pat repl : List Char) : listReplace pat repl [] = [] := rfl

theorem listReplace_cons (pat repl : List Char) (c : Char) (t : List Char) :
    listReplace pat repl (c :: t) =
      if pat.isPrefixOf (c :: t) then
        repl ++ listReplace pat repl (t.drop (pat.length - 1))
      else
        c :: listReplace pat repl t := by
  show listReplaceAux pat repl (t.length + 1) (c :: t) = _
  simp only [listReplaceAux]
  have hd : (t.drop (pat.length - 1)).length ≤ t.length := by
    rw [List.length_drop]
    omega
  by_cases hp : pat.isPrefixOf (c :: t) = true
  · rw [hp]
    simp only [if_true]
    rw [listReplaceAux_congr pat repl t.length (t.drop (pat.length - 1)).length
      (t.drop (pat.length - 1)) (by omega) (le_refl _)]
    rfl
  · simp only [Bool.not_eq_true] at hp
    rw [hp]
    simp only [Bool.false_eq_true, if_false]
    rfl

/-- Python str.count(pat) for a nonempty pattern (non-overlapping, left
to right) — used to state "the marker is present exactly once". -/
def countOcc (pat : List Char) : List Char → Nat
  | [] => 0
  | c :: t =>
    if pat.isPrefixOf (c :: t) then
      1 + countOcc pat (t.drop (pat.length - 1))
    else
      countOcc pat t
termination_by s => s.length
decreasing_by
· simp only [List.length_drop, List.length_cons]
  omega
· simp only [List.length_cons]
  omega

/-- Python `pat in s` (substring containment). -/
def containsSub (pat : List Char) : List Char → Bool
  | [] => pat.isEmpty
  | c :: t => pat.isPrefixOf (c :: t) || containsSub pat t

/-- No occurrence of pat starts at a position < n of s. -/
def noOccBefore (pat s : List Char) (n : Nat) : Prop :=
  ∀ i, i < n → pat.isPrefixOf (s.drop i) = false

/-- No occurrence of pat starts anywhere in s (for nonempty pat). -/
def noOccIn (pat s : List Char) : Prop := noOccBefore pat s s.length

instance decNoOccBefore (pat s : List Char) (n : Nat) : Decidable (noOccBefore pat s n) := by
  unfold noOccBefore
  infer_instance

instance decNoOccIn (pat s : List Char) : Decidable (noOccIn pat s) := by
  unfold noOccIn
  infer_instance

theorem isPrefixOf_append_self (p B : List Char) : p.isPrefixOf (p ++ B) = true := by
  induction p with
  | nil => cases B <;> rfl
  | cons a as ih => simp [List.isPrefixOf, ih]

theorem containsSub_of_occ (pat s : List Char) (i : Nat)
    (h : pat.isPrefixOf (s.drop i) = true) : containsSub pat s = true := by
  induction s generalizing i with
  | nil =>
    cases pat with
    | nil => rfl
    | cons p pt => simp at h
  | cons c t ih =>
    cases i with
    | zero =>
      simp only [List.drop_zero] at h
      simp [containsSub, h]
    | succ j =>
      simp only [List.drop_succ_cons] at h
      simp [containsSub, ih j h]

theorem listReplace_of_noOcc (pat repl s : List Char)
    (h : noOccIn pat s) : listReplace pat repl s = s := by
  induction s with
  | nil => rfl
  | cons c t ih =>
    have h0 : pat.isPrefixOf (c :: t) = false := by
      simpa using h 0 (by simp)
    rw [listReplace_cons, h0]
    simp only [Bool.false_eq_true, if_false, List.cons.injEq, true_and]
    exact ih (fun i hi => by simpa using h (i + 1) (by simpa using Nat.succ_lt_succ hi))

theorem countOcc_of_noOcc (pat s : List Char)
    (h : noOccIn pat s) : countOcc pat s = 0 := by
  induction s with
  | nil => simp [countOcc]
  | cons c t ih =>
    have h0 : pat.isPrefixOf (c :: t) = false := by
      simpa using h 0 (by simp)
    rw [countOcc, h0]
    simp only [Bool.false_eq_true, if_false]
    exact ih (fun i hi => by simpa using h (i + 1) (by simpa using Nat.succ_lt_succ hi))

theorem listReplace_append_of_noOccBefore (pat repl A rest : List Char)
    (h : noOccBefore pat (A ++ rest) A.length) :
    listReplace pat repl (A ++ rest) = A ++ listReplace pat repl rest := by
  induction A generalizing rest with
  | nil => rfl
  | cons c A ih =>
    have h0 : pat.isPrefixOf (c :: (A ++ rest)) = false := by
      simpa using h 0 (by simp)
    rw [List.cons_append, listReplace_cons, h0]
    simp only [Bool.false_eq_true, if_false, List.cons_append, List.cons.injEq, true_and]
    exact ih rest (fun i hi => by
      simpa using h (i + 1) (by simpa using Nat.succ_lt_succ hi))

theorem countOcc_append_of_noOccBefore (pat A rest : List Char)
    (h : noOccBefore pat (A ++ rest) A.length) :
    countOcc pat (A ++ rest) = countOcc pat rest := by
  induction A generalizing rest with
  | nil => rfl
  | cons c A ih =>
    have h0 : pat.isPrefixOf (c :: (A ++ rest)) = false := by
      simpa using h 0 (by simp)
    rw [List.cons_append, countOcc, h0]
    simp only [Bool.false_eq_true, if_false]
    exact ih rest (fun i hi => by
      simpa using h (i + 1) (by simpa using Nat.succ_lt_succ hi))

theorem listReplace_head_match (pat repl B : List Char) (hne : pat ≠ []) :
    listReplace pat repl (pat ++ B) = repl ++ listReplace pat repl B := by
  cases pat with
  | nil => exact absurd rfl hne
  | cons p pt =>
    rw [List.cons_append, listReplace_cons]
    have hp : (p :: pt).isPrefixOf (p :: (pt ++ B)) = true :=
      isPrefixOf_append_self (p :: pt) B
    rw [hp]
    simp [List.drop_left]

theorem countOcc_head_match (pat B : List Char) (hne : pat ≠ []) :
    countOcc pat (pat ++ B) = 1 + countOcc pat B := by
  cases pat with
  | nil => exact absurd rfl hne
  | cons p pt =>
    rw [List.cons_append, countOcc]
    have hp : (p :: pt).isPrefixOf (p :: (pt ++ B)) = true :=
      isPrefixOf_append_self (p :: pt) B
    rw [hp]
    simp [List.drop_left]

/-- Inserting repl-before-pattern at the unique occurrence: if no
occurrence of pat starts inside A (in context) and none starts in B,
replacing pat by L ++ pat in A ++ pat ++ B inserts L immediately before
the pattern and leaves everything else alone. -/
theorem listReplace_register (pat L A B : List Char) (hne : pat ≠ [])
    (hA : noOccBefore pat (A ++ pat ++ B) A.length)
    (hB : noOccIn pat B) :
    listReplace pat (L ++ pat) (A ++ pat ++ B) = A ++ L ++ pat ++ B := by
  have h1 : listReplace pat (L ++ pat) (A ++ (pat ++ B)) =
      A ++ listReplace pat (L ++ pat) (pat ++ B) := by
    refine listReplace_append_of_noOccBefore pat (L ++ pat) A (pat ++ B) ?_
    intro i hi
    have := hA i hi
    simpa [List.append_assoc] using this
  calc listReplace pat (L ++ pat) (A ++ pat ++ B)
      = A ++ listReplace pat (L ++ pat) (pat ++ B) := by
        simpa [List.append_assoc] using h1
    _ = A ++ ((L ++ pat) ++ listReplace pat (L ++ pat) B) := by
        rw [listReplace_head_match pat (L ++ pat) B hne]
    _ = A ++ L ++ pat ++ B := by
        rw [listReplace_of_noOcc pat (L ++ pat) B hB]
        simp [List.append_assoc]

/-! ## notebook_tools.py — create_lecture and create_session

The filesystem is the partial map FS from above; a write is a pointwise
update (parent-directory creation has no effect on the map model).
Lecture numbers are naturals (f"{n:02d}" pads a single digit with one
zero). -/

/-- Pointwise filesystem update (Path.write_text). -/
def fsWrite (fs : FS) (p : List Seg) (c : List Char) : FS :=
  fun q => if q = p then some c else fs q


/-- Python f"{n:02d}" for a natural n. -/
def twoDigit (n : Nat) : List Char :=
  if n < 10 then '0' :: pyNatStr n else pyNatStr n

/-- lec_id = f"lec{lecture_num:02d}". -/
def lecId (n : Nat) : List Char := "lec".data ++ twoDigit n

/-- notes/latex/{lec_id}/{lec_id}.tex under the class directory. -/
def lecFilePath (root : List Seg) (n : Nat) : List Seg :=
  root ++ [ "notes".data, "latex".data, lecId n, lecId n ++ ".tex".data]

/-- notes/latex/temp/temp.tex under the class directory. -/
def lecTemplatePath (root : List Seg) : List Seg :=
  root ++ [ "notes".data, "latex".data, "temp".data, "temp.tex".data]

/-- notes/latex/master/master.tex under the class directory. -/
def masterPath (root : List Seg) : List Seg :=
  root ++ [ "notes".data, "latex".data, "master".data, "master.tex".data]

/-- The ADD_LECTURE_HERE marker of master.tex. -/
def lectureMarker : List Char := "% ADD_LECTURE_HERE".data

/-- The five literal-string substitutions create_lecture applies to the
template (str.replace with exact placeholder text). -/
def fillLectureTemplate (tmpl : List Char) (n : Nat) (date topic : List Char) : List Char :=
  let c1 := listReplace ( "\\renewcommand\x7b\\lecturenum\x7d\x7bX\x7d".data)
      ( "\\renewcommand\x7b\\lecturenum\x7d\x7b".data ++ pyNatStr n ++ "\x7d".data) tmpl
  let c2 := listReplace ( "\\renewcommand\x7b\\lecturedate\x7d\x7bJanuary 1, 2026\x7d".data)
      ( "\\renewcommand\x7b\\lecturedate\x7d\x7b".data ++ date ++ "\x7d".data) c1
  let c3 := listReplace ( "\\renewcommand\x7b\\lecturetopic\x7d\x7bTopic\x7d".data)
      ( "\\renewcommand\x7b\\lecturetopic\x7d\x7b".data ++ topic ++ "\x7d".data) c2
  let c4 := listReplace ( "% LECTURE X: Topic".data)
      ( "% LECTURE ".data ++ pyNatStr n ++ ": ".data ++ topic) c3
  listReplace ( "% Date: January 1, 2026".data) ( "% Date: ".data ++ date) c4

/-- The subfile block create_lecture splices in before the marker. -/
def lecSubfileLine (n : Nat) : List Char :=
  "% Lecture ".data ++ pyNatStr n ++ "\n\\subfile\x7b../".data ++ lecId n
    ++ "/".data ++ lecId n ++ "\x7d\n\\newpage\n\n".data

/-- create_lecture's duplicate-error message. -/
def dupLectureMsg (n : Nat) : List Char :=
  "Error: ".data ++ lecId n ++ " already exists".data

/-- create_lecture's success message. -/
def createdLectureMsg (n : Nat) : List Char :=
  "Created ".data ++ lecId n ++ "/".data ++ lecId n
    ++ ".tex — ready for content. Added to master.tex.".data

/-- create_lecture's missing-marker message. -/
def lecNoMarkerMsg (n : Nat) : List Char :=
  "Created ".data ++ lecId n ++ "/".data ++ lecId n
    ++ ".tex but could not find % ADD_LECTURE_HERE in master.tex — add \\subfile manually.".data

/-- NotebookTools.create_lecture: duplicate check, template check,
literal substitutions, write the lecture file, then splice a subfile
block in front of the ADD_LECTURE_HERE marker of master.tex (skipped
silently when master.tex does not exist; reported when the marker is
missing).  Returns the message and the updated filesystem. -/
def createLecture (fs : FS) (root : List Seg) (n : Nat) (date topic : List Char) :
    List Char × FS :=
  match fs (lecFilePath root n) with
  | some _ => (dupLectureMsg n, fs)
  | none =>
    match fs (lecTemplatePath root) with
    | none => ( "Error: template not found at notes/latex/temp/temp.tex".data, fs)
    | some tmpl =>
      let fs1 := fsWrite fs (lecFilePath root n) (fillLectureTemplate tmpl n date topic)
      match fs1 (masterPath root) with
      | some master =>
        if containsSub lectureMarker master then
          (createdLectureMsg n,
            fsWrite fs1 (masterPath root)
              (listReplace lectureMarker (lecSubfileLine n ++ lectureMarker) master))
        else (lecNoMarkerMsg n, fs1)
      | none => (createdLectureMsg n, fs1)

/-- C6: if lecture n already exists, a second create_lecture call with
the same number fails with the duplicate error before performing any
write: the returned filesystem is exactly the input filesystem, so the
existing lecture document is byte-identical and the master container is
unchanged. -/
theorem C6_create_lecture_duplicate (fs : FS) (root : List Seg) (n : Nat)
    (date topic existing : List Char)
    (h : fs (lecFilePath root n) = some existing) :
    createLecture fs root n date topic = (dupLectureMsg n, fs) := by
  unfold createLecture
  rw [h]

/-- Witness for C6 at a concrete filesystem holding lecture 3. -/
theorem C6_create_lecture_duplicate_witness :
    (fun q => if q = lecFilePath mRoot 3 then some ( "old content".data) else none)
        (lecFilePath mRoot 3) = some ( "old content".data) ∧
    createLecture
        (fun q => if q = lecFilePath mRoot 3 then some ( "old content".data) else none)
        mRoot 3 ( "February 7, 2026".data) ( "Sequences".data) =
      (dupLectureMsg 3,
        fun q => if q = lecFilePath mRoot 3 then some ( "old content".data) else none) :=
  ⟨by simp, C6_create_lecture_duplicate _ mRoot 3 _ _ ( "old content".data) (by simp)⟩

/-- session_id = f"session-{date}". -/
def sessionId (date : List Char) : List Char := "session-".data ++ date

/-- notes/latex/sessions/{session_id}.tex under the class directory. -/
def sessionFilePath (root : List Seg) (date : List Char) : List Seg :=
  root ++ [ "notes".data, "latex".data, "sessions".data, sessionId date ++ ".tex".data]

/-- notes/latex/sessions/sessions.tex, the session container. -/
def sessionsContainerPath (root : List Seg) : List Seg :=
  root ++ [ "notes".data, "latex".data, "sessions".data, "sessions.tex".data]

/-- The ADD_SESSION_HERE marker of sessions.tex. -/
def sessionMarker : List Char := "% ADD_SESSION_HERE".data

/-- The include block create_session splices in before the marker:
f"\\subfile{session_id}\n\n". -/
def sessionSubfileLine (date : List Char) : List Char :=
  "\\subfile\x7b".data ++ sessionId date ++ "\x7d\n\n".data

/-- The \item list create_session builds from the non-blank lines of a
multi-line argument. -/
def itemLines (s : List Char) : List Char :=
  List.intercalate ( "\n".data)
    (((pyStrip s).splitOn '\n').filterMap (fun line =>
      if pyStrip line = [] then none else some ( "    \\item ".data ++ pyStrip line)))

/-- The session .tex document create_session writes (transcribed from
the f-string; note the summary argument is not interpolated anywhere in
the template by the code). -/
def sessionContent (date mode topics covered nextSteps : List Char) : List Char :=
  "\\documentclass[../master/master.tex]\x7bsubfiles\x7d\n\n\\begin\x7bdocument\x7d\n\n\\subsection\x7b".data
  ++ date ++ " --- ".data ++ mode
  ++ " Session\x7d\n\n\\begin\x7bsummarybox\x7d\n\\textbf\x7bSession Summary\x7d \\\\\n\\textbf\x7bDate:\x7d ".data
  ++ date ++ " \\\\\n\\textbf\x7bMode:\x7d ".data
  ++ mode ++ " \\\\\n\\textbf\x7bTopics:\x7d ".data
  ++ topics ++ "\n\\end\x7bsummarybox\x7d\n\n\\textbf\x7bWhat we covered:\x7d\n\\begin\x7bitemize\x7d[nosep]\n".data
  ++ itemLines covered ++ "\n\\end\x7bitemize\x7d\n\n\\textbf\x7bNext steps:\x7d\n\\begin\x7bitemize\x7d[nosep]\n".data
  ++ itemLines nextSteps ++ "\n\\end\x7bitemize\x7d\n\n\\end\x7bdocument\x7d\n".data

/-- create_session's duplicate-error message. -/
def dupSessionMsg (date : List Char) : List Char :=
  "Error: ".data ++ sessionId date ++ ".tex already exists".data

/-- create_session's success message. -/
def createdSessionMsg (date : List Char) : List Char :=
  "Created session log: notes/latex/sessions/".data ++ sessionId date ++ ".tex".data

/-- The registration step of create_session: if sessions.tex exists and
contains the marker, splice the subfile line in front of the marker
(str.replace); otherwise leave the filesystem as is. -/
def registerSession (fs1 : FS) (root : List Seg) (date : List Char) : FS :=
  match fs1 (sessionsContainerPath root) with
  | some cc =>
    if containsSub sessionMarker cc then
      fsWrite fs1 (sessionsContainerPath root)
        (listReplace sessionMarker (sessionSubfileLine date ++ sessionMarker) cc)
    else fs1
  | none => fs1

set_option linter.unusedVariables false in
/-- NotebookTools.create_session: duplicate check, write the session
document, then register it in sessions.tex; the success message is
returned whether or not registration found the container/marker.  The
summary argument is accepted but never interpolated — exactly as in the
code, whose f-string template has no summary placeholder. -/
def createSession (fs : FS) (root : List Seg)
    (date mode summary topics covered nextSteps : List Char) : List Char × FS :=
  match fs (sessionFilePath root date) with
  | some _ => (dupSessionMsg date, fs)
  | none =>
    (createdSessionMsg date,
      registerSession
        (fsWrite fs (sessionFilePath root date)
          (sessionContent date mode topics covered nextSteps))
        root date)

theorem fsWrite_ne (fs : FS) (p : List Seg) (c : List Char) (q : List Seg)
    (h : q ≠ p) : fsWrite fs p c q = fs q := by
  simp [fsWrite, h]

theorem fsWrite_eq (fs : FS) (p : List Seg) (c : List Char) : fsWrite fs p c p = some c := by
  simp [fsWrite]

theorem append_ne_append_of_ne {p q x y : List Char}
    (hlen : p.length = q.length) (hne : p ≠ q) : p ++ x ≠ q ++ y := by
  intro h
  apply hne
  have h1 : (p ++ x).take p.length = p := List.take_left p x
  have h2 : (q ++ y).take q.length = q := List.take_left q y
  rw [← h1, h, hlen, h2]

theorem sessionTail_ne (d : List Char) :
    sessionId d ++ ".tex".data ≠ ( "sessions.tex".data : List Char) := by
  have h : sessionId d ++ ".tex".data = "session-".data ++ (d ++ ".tex".data) := by
    simp [sessionId]
  rw [h]
  have h2 : ( "sessions.tex".data : List Char) = "sessions".data ++ ".tex".data := by decide
  rw [h2]
  exact append_ne_append_of_ne (by decide) (by decide)

theorem sessionFile_ne_container (root : List Seg) (d : List Char) :
    sessionFilePath root d ≠ sessionsContainerPath root := by
  intro h
  unfold sessionFilePath sessionsContainerPath at h
  have h2 := List.append_cancel_left h
  injection h2 with _ h2
  injection h2 with _ h2
  injection h2 with _ h2
  injection h2 with h2 _
  exact sessionTail_ne d h2

theorem sessionFilePath_inj (root : List Seg) {d1 d2 : List Char}
    (h : sessionFilePath root d1 = sessionFilePath root d2) : d1 = d2 := by
  unfold sessionFilePath at h
  have h2 := List.append_cancel_left h
  injection h2 with _ h2
  injection h2 with _ h2
  injection h2 with _ h2
  injection h2 with h2 _
  have h3 := List.append_cancel_right h2
  unfold sessionId at h3
  exact List.append_cancel_left h3

theorem registerSession_eq (fs1 : FS) (root : List Seg) (date cc : List Char)
    (hcc : fs1 (sessionsContainerPath root) = some cc)
    (hmark : containsSub sessionMarker cc = true) :
    registerSession fs1 root date =
      fsWrite fs1 (sessionsContainerPath root)
        (listReplace sessionMarker (sessionSubfileLine date ++ sessionMarker) cc) := by
  unfold registerSession
  rw [hcc]
  simp [hmark]

theorem containsSub_marker_middle (A B : List Char) :
    containsSub sessionMarker (A ++ sessionMarker ++ B) = true := by
  refine containsSub_of_occ sessionMarker (A ++ sessionMarker ++ B) A.length ?_
  have h : (A ++ sessionMarker ++ B).drop A.length = sessionMarker ++ B := by
    simp [List.append_assoc, List.drop_left]
  rw [h]
  exact isPrefixOf_append_self sessionMarker B


/-- Helper for C5: the double registration under explicit no-occurrence
hypotheses for every scan position before each insertion point (these
are discharged from character-level facts in the main theorem). -/
theorem registerTwoSessions_aux (fs : FS) (root : List Seg)
    (d1 d2 m1 m2 su1 su2 tp1 tp2 cv1 cv2 nx1 nx2 A B : List Char)
    (hd : d1 ≠ d2)
    (hcont : fs (sessionsContainerPath root) = some (A ++ sessionMarker ++ B))
    (hs1 : fs (sessionFilePath root d1) = none)
    (hs2 : fs (sessionFilePath root d2) = none)
    (hA : noOccBefore sessionMarker (A ++ sessionMarker ++ B) A.length)
    (hB : noOccIn sessionMarker B)
    (hA1 : noOccBefore sessionMarker
      (A ++ sessionSubfileLine d1 ++ sessionMarker ++ B)
      (A.length + (sessionSubfileLine d1).length))
    (hA2 : noOccBefore sessionMarker
      (A ++ sessionSubfileLine d1 ++ sessionSubfileLine d2 ++ sessionMarker ++ B)
      (A.length + (sessionSubfileLine d1).length + (sessionSubfileLine d2).length)) :
    (createSession (createSession fs root d1 m1 su1 tp1 cv1 nx1).2
        root d2 m2 su2 tp2 cv2 nx2).2 (sessionsContainerPath root) =
      some (A ++ sessionSubfileLine d1 ++ sessionSubfileLine d2 ++ sessionMarker ++ B) ∧
    countOcc sessionMarker
      (A ++ sessionSubfileLine d1 ++ sessionSubfileLine d2 ++ sessionMarker ++ B) = 1 := by
  have hmne : sessionMarker ≠ [] := by decide
  set L1 := sessionSubfileLine d1 with hL1
  set L2 := sessionSubfileLine d2 with hL2
  have hne1c : sessionFilePath root d1 ≠ sessionsContainerPath root :=
    sessionFile_ne_container root d1
  have hne2c : sessionFilePath root d2 ≠ sessionsContainerPath root :=
    sessionFile_ne_container root d2
  have hcne1 : sessionsContainerPath root ≠ sessionFilePath root d1 :=
    fun hq => hne1c hq.symm
  have hcne2 : sessionsContainerPath root ≠ sessionFilePath root d2 :=
    fun hq => hne2c hq.symm
  have hne21 : sessionFilePath root d2 ≠ sessionFilePath root d1 :=
    fun hq => hd (sessionFilePath_inj root hq).symm
  -- first registration
  set c1 := sessionContent d1 m1 tp1 cv1 nx1 with hc1
  set fsa := fsWrite fs (sessionFilePath root d1) c1 with hfsa
  have hcont1 : fsa (sessionsContainerPath root) = some (A ++ sessionMarker ++ B) := by
    rw [hfsa, fsWrite_ne fs _ _ _ hcne1]
    exact hcont
  have hsplice1 : listReplace sessionMarker (L1 ++ sessionMarker) (A ++ sessionMarker ++ B)
      = A ++ L1 ++ sessionMarker ++ B := by
    have := listReplace_register sessionMarker L1 A B hmne hA hB
    simpa [List.append_assoc] using this
  set fsb := fsWrite fsa (sessionsContainerPath root) (A ++ L1 ++ sessionMarker ++ B) with hfsb
  have hstep1 : (createSession fs root d1 m1 su1 tp1 cv1 nx1).2 = fsb := by
    unfold createSession
    rw [hs1]
    show registerSession fsa root d1 = fsb
    rw [registerSession_eq fsa root d1 (A ++ sessionMarker ++ B) hcont1
      (containsSub_marker_middle A B), hsplice1, hfsb]
  -- second registration
  have hs2b : fsb (sessionFilePath root d2) = none := by
    rw [hfsb, fsWrite_ne fsa _ _ _ hne2c, hfsa, fsWrite_ne fs _ _ _ hne21]
    exact hs2
  set c2 := sessionContent d2 m2 tp2 cv2 nx2 with hc2
  set fsc := fsWrite fsb (sessionFilePath root d2) c2 with hfsc
  have hcont2 : fsc (sessionsContainerPath root) = some ((A ++ L1) ++ sessionMarker ++ B) := by
    rw [hfsc, fsWrite_ne fsb _ _ _ hcne2, hfsb, fsWrite_eq]
  have hA1b : noOccBefore sessionMarker ((A ++ L1) ++ sessionMarker ++ B) (A ++ L1).length := by
    intro i hi
    have hi2 : i < A.length + L1.length := by simpa [List.length_append] using hi
    have := hA1 i hi2
    simpa [List.append_assoc] using this
  have hsplice2 : listReplace sessionMarker (L2 ++ sessionMarker) ((A ++ L1) ++ sessionMarker ++ B)
      = A ++ L1 ++ L2 ++ sessionMarker ++ B := by
    have := listReplace_register sessionMarker L2 (A ++ L1) B hmne hA1b hB
    simpa [List.append_assoc] using this
  have hmark2 : containsSub sessionMarker ((A ++ L1) ++ sessionMarker ++ B) = true :=
    containsSub_marker_middle (A ++ L1) B
  have hstep2 : (createSession fsb root d2 m2 su2 tp2 cv2 nx2).2 =
      fsWrite fsc (sessionsContainerPath root) (A ++ L1 ++ L2 ++ sessionMarker ++ B) := by
    unfold createSession
    rw [hs2b]
    show registerSession fsc root d2 = _
    rw [registerSession_eq fsc root d2 ((A ++ L1) ++ sessionMarker ++ B) hcont2 hmark2,
      hsplice2]
  constructor
  · rw [hstep1, hstep2, fsWrite_eq]
  · have hA2b : noOccBefore sessionMarker ((A ++ L1 ++ L2) ++ (sessionMarker ++ B))
        (A ++ L1 ++ L2).length := by
      intro i hi
      have hi2 : i < A.length + L1.length + L2.length := by
        simp [List.length_append] at hi
        omega
      have := hA2 i hi2
      simpa [List.append_assoc] using this
    have h1 : countOcc sessionMarker ((A ++ L1 ++ L2) ++ (sessionMarker ++ B)) =
        countOcc sessionMarker (sessionMarker ++ B) :=
      countOcc_append_of_noOccBefore sessionMarker (A ++ L1 ++ L2) (sessionMarker ++ B) hA2b
    have h2 : countOcc sessionMarker (sessionMarker ++ B) = 1 + countOcc sessionMarker B :=
      countOcc_head_match sessionMarker B hmne
    have h3 : countOcc sessionMarker B = 0 := countOcc_of_noOcc sessionMarker B hB
    have h4 : A ++ L1 ++ L2 ++ sessionMarker ++ B = (A ++ L1 ++ L2) ++ (sessionMarker ++ B) := by
      simp [List.append_assoc]
    rw [h4, h1, h2, h3]

theorem sessionMarker_length : sessionMarker.length = 18 := rfl

/-- No occurrence of the marker can begin before or astride a block L
spliced in front of it, provided L is free of the marker's head
character % and begins with a backslash (a character the marker does
not contain): inserting L before the marker of A ++ marker ++ B cannot
create a new occurrence left of the marker. -/
theorem noOccBefore_insert_block (A B L : List Char)
    (hA : noOccBefore sessionMarker (A ++ sessionMarker ++ B) A.length)
    (hL : ∀ c ∈ L, c ≠ '%')
    (hhead : L.head? = some '\\') :
    noOccBefore sessionMarker (A ++ L ++ sessionMarker ++ B) (A.length + L.length) := by
  intro i hi
  by_contra hocc
  rw [Bool.not_eq_false] at hocc
  have hassoc : A ++ L ++ sessionMarker ++ B = A ++ (L ++ (sessionMarker ++ B)) := by
    simp [List.append_assoc]
  rw [hassoc] at hocc
  have hpre : sessionMarker <+: ((A ++ (L ++ (sessionMarker ++ B))).drop i) :=
    ( List.isPrefixOf_iff_prefix).mp hocc
  have htake : sessionMarker = ((A ++ (L ++ (sessionMarker ++ B))).drop i).take 18 := by
    have h1 := List.prefix_iff_eq_take.mp hpre
    rwa [sessionMarker_length] at h1
  have hpoint : ∀ j, j < 18 →
      (A ++ (L ++ (sessionMarker ++ B)))[i + j]? = sessionMarker[j]? := by
    intro j hj
    conv_rhs => rw [htake]
    rw [List.getElem?_take, if_pos hj, List.getElem?_drop]
  rcases Nat.lt_or_ge i A.length with hiA | hiL
  · rcases le_or_lt (i + 18) A.length with hin | hstrad
    · -- the match would lie wholly inside A: contradicts hA
      have hMA : sessionMarker <+: A.drop i := by
        rw [List.prefix_iff_eq_take, sessionMarker_length]
        apply List.ext_getElem?
        intro n
        by_cases hn : n < 18
        · rw [List.getElem?_take, if_pos hn, List.getElem?_drop, ← hpoint n hn,
            List.getElem?_append, if_pos (by omega)]
        · rw [List.getElem?_take, if_neg hn, List.getElem?_eq_none]
          rw [sessionMarker_length]
          omega
      have hcontra := hA i hiA
      rw [← Bool.not_eq_true] at hcontra
      apply hcontra
      rw [ List.isPrefixOf_iff_prefix]
      have hassoc2 : A ++ sessionMarker ++ B = A ++ (sessionMarker ++ B) := by
        simp [List.append_assoc]
      rw [hassoc2]
      have hdrop : (A ++ (sessionMarker ++ B)).drop i =
          A.drop i ++ (sessionMarker ++ B) := by
        rw [List.drop_append_eq_append_drop]
        have hz : i - A.length = 0 := by omega
        rw [hz, List.drop_zero]
      rw [hdrop]
      exact hMA.trans (List.prefix_append (A.drop i) (sessionMarker ++ B))
    · -- the match would straddle the A/L boundary: the character at
      -- position |A| is the backslash heading L, but the marker holds
      -- no backslash at positions 1..17
      have hj1 : 1 ≤ A.length - i := by omega
      have hj2 : A.length - i < 18 := by omega
      have h1 := hpoint (A.length - i) hj2
      have hij : i + (A.length - i) = A.length := by omega
      rw [hij] at h1
      have h2 : (A ++ (L ++ (sessionMarker ++ B)))[A.length]? =
          (L ++ (sessionMarker ++ B))[0]? := by
        rw [List.getElem?_append_right (le_refl A.length), Nat.sub_self]
      rcases L with _ | ⟨c0, Lt⟩
      · simp at hhead
      · have hc0 : c0 = '\\' := by simpa using hhead
        have h3 : ((c0 :: Lt) ++ (sessionMarker ++ B))[0]? = some c0 := by simp
        have hfact : ∀ j, 1 ≤ j → j < 18 → sessionMarker[j]? ≠ some '\\' := by decide
        exact hfact (A.length - i) hj1 hj2 (by rw [← h1, h2, h3, hc0])
  · -- the match would begin inside L: its first character is the
    -- marker head %, which L does not contain
    have h1 := hpoint 0 (by omega)
    rw [Nat.add_zero] at h1
    have h2 : (A ++ (L ++ (sessionMarker ++ B)))[i]? =
        (L ++ (sessionMarker ++ B))[i - A.length]? :=
      List.getElem?_append_right hiL
    have h3 : (L ++ (sessionMarker ++ B))[i - A.length]? = L[i - A.length]? := by
      rw [List.getElem?_append, if_pos (by omega)]
    have h4 : L[i - A.length]? = some '%' := by
      rw [← h3, ← h2, h1]
      rfl
    exact hL '%' (List.getElem?_mem h4) rfl

theorem sessionSubfileLine_head (d : List Char) :
    (sessionSubfileLine d).head? = some '\\' := rfl

theorem sessionSubfileLine_no_pct (d : List Char) (hd : '%' ∉ d) :
    ∀ c ∈ sessionSubfileLine d, c ≠ '%' := by
  intro c hc hce
  subst hce
  unfold sessionSubfileLine sessionId at hc
  simp only [List.append_assoc, List.mem_append] at hc
  have h1 : ('%' : Char) ∉ ( "\\subfile\x7b".data : List Char) := by decide
  have h2 : ('%' : Char) ∉ ( "session-".data : List Char) := by decide
  have h3 : ('%' : Char) ∉ ( "\x7d\n\n".data : List Char) := by decide
  rcases hc with hc | hc | hc | hc <;>
    first
      | exact h1 hc
      | exact h2 hc
      | exact h3 hc
      | exact hd hc

/-- C5: starting from a container that holds the marker exactly once
(no occurrence starts at a position left of the canonical one, none in
the suffix after it), with no prior registrations for the two distinct
dates and dates free of the marker's comment character %, registering
two sessions in sequence leaves both generated include blocks in the
container before the marker, in call order (first-registered first),
with the marker still present exactly once. -/
theorem C5_session_registration (fs : FS) (root : List Seg)
    (d1 d2 m1 m2 su1 su2 tp1 tp2 cv1 cv2 nx1 nx2 A B : List Char)
    (hd : d1 ≠ d2)
    (hcont : fs (sessionsContainerPath root) = some (A ++ sessionMarker ++ B))
    (hs1 : fs (sessionFilePath root d1) = none)
    (hs2 : fs (sessionFilePath root d2) = none)
    (hA : noOccBefore sessionMarker (A ++ sessionMarker ++ B) A.length)
    (hB : noOccIn sessionMarker B)
    (hp1 : '%' ∉ d1)
    (hp2 : '%' ∉ d2) :
    (createSession (createSession fs root d1 m1 su1 tp1 cv1 nx1).2
        root d2 m2 su2 tp2 cv2 nx2).2 (sessionsContainerPath root) =
      some (A ++ sessionSubfileLine d1 ++ sessionSubfileLine d2 ++ sessionMarker ++ B) ∧
    countOcc sessionMarker
      (A ++ sessionSubfileLine d1 ++ sessionSubfileLine d2 ++ sessionMarker ++ B) = 1 := by
  have hA1 := noOccBefore_insert_block A B (sessionSubfileLine d1) hA
    (sessionSubfileLine_no_pct d1 hp1) (sessionSubfileLine_head d1)
  have hA1b : noOccBefore sessionMarker
      ((A ++ sessionSubfileLine d1) ++ sessionMarker ++ B)
      (A ++ sessionSubfileLine d1).length := by
    intro i hi
    refine Eq.trans ?_ (hA1 i (by simpa [List.length_append] using hi))
    simp [List.append_assoc]
  have hA2b := noOccBefore_insert_block (A ++ sessionSubfileLine d1) B
    (sessionSubfileLine d2) hA1b (sessionSubfileLine_no_pct d2 hp2)
    (sessionSubfileLine_head d2)
  have hA2 : noOccBefore sessionMarker
      (A ++ sessionSubfileLine d1 ++ sessionSubfileLine d2 ++ sessionMarker ++ B)
      (A.length + (sessionSubfileLine d1).length + (sessionSubfileLine d2).length) := by
    intro i hi
    refine Eq.trans ?_ (hA2b i (by rw [List.length_append]; omega))
    simp [List.append_assoc]
  exact registerTwoSessions_aux fs root d1 d2 m1 m2 su1 su2 tp1 tp2 cv1 cv2 nx1 nx2 A B
    hd hcont hs1 hs2 hA hB hA1 hA2

/-- Container contents for the concrete C5 scenario. -/
def wSessContainer : List Char := "s:\n".data ++ sessionMarker ++ "\nz".data

/-- Filesystem for the concrete C5 scenario: only sessions.tex exists. -/
def wSessFS : FS :=
  fun q => if q = sessionsContainerPath mRoot then some wSessContainer else none

/-- Witness for C5 at a concrete container and two concrete dates. -/
theorem C5_session_registration_witness :
    (createSession (createSession wSessFS mRoot ( "2026-02-06".data) ( "Review".data)
        ( "su".data) ( "tp".data) ( "cv".data) ( "nx".data)).2
      mRoot ( "2026-02-07".data) ( "Lecture".data) ( "su".data) ( "tp".data)
        ( "cv".data) ( "nx".data)).2
      (sessionsContainerPath mRoot) =
      some ( "s:\n".data ++ sessionSubfileLine ( "2026-02-06".data)
        ++ sessionSubfileLine ( "2026-02-07".data) ++ sessionMarker ++ "\nz".data) ∧
    countOcc sessionMarker ( "s:\n".data ++ sessionSubfileLine ( "2026-02-06".data)
        ++ sessionSubfileLine ( "2026-02-07".data) ++ sessionMarker ++ "\nz".data) = 1 :=
  C5_session_registration wSessFS mRoot _ _ _ _ _ _ _ _ _ _ _ _ ( "s:\n".data) ( "\nz".data)
    (by decide) (by simp [wSessFS, wSessContainer]) (by decide) (by decide)
    (by decide) (by decide) (by decide) (by decide)


/-! ## factcheck.py / progress.py — delta scans and passes

A latex-directory entry carries what the scan inspects: its name,
whether it is a directory, whether name/name.tex exists, and that
file's mtime.  mtimes and wall-clock samples are naturals.  The
generation step (agent.arun) is an oracle: either a response text or an
exception message. -/

/-- One entry of class_dir/notes/latex as seen by the scans. -/
structure LecEntry where
  name : List Char
  isDir : Bool
  hasTex : Bool
  mtime : Nat
deriving DecidableEq, Repr

/-- d.is_dir() and d.name.startswith("lec") and (d / f"{d.name}.tex").exists(). -/
def isLectureDoc (e : LecEntry) : Bool :=
  e.isDir && ( "lec".data.isPrefixOf e.name) && e.hasTex

/-- factcheck._find_changed_lectures: iterate sorted(latex_dir.iterdir()),
keep lecture documents whose mtime strictly exceeds `since`. -/
def findChangedLectures (entries : List LecEntry) (since : Nat) : List LecEntry :=
  (sortByKey LecEntry.name entries).filter
    (fun e => isLectureDoc e && decide (since < e.mtime))

/-- A file of one hw/{id}/submission directory, in directory-iteration
order (progress.py does not sort these). -/
structure SubFile where
  name : List Char
  mtime : Nat
deriving DecidableEq, Repr

/-- One entry of class_dir/hw as seen by progress._find_edited_files. -/
structure HwEntry where
  name : List Char
  isDir : Bool
  hasSubmission : Bool
  subFiles : List SubFile
deriving DecidableEq, Repr

/-- Path.suffix == ".tex" (the stem must be nonempty). -/
def hasTexSuffix (n : List Char) : Bool :=
  ( ".tex".data.isSuffixOf n) && decide (4 < n.length)

/-- A document of the progress delta: a lecture file or a homework
submission file. -/
inductive EditedDoc where
  | lec (e : LecEntry)
  | sub (hw : List Char) (f : SubFile)
deriving DecidableEq, Repr

/-- The path identifying an edited document (relative to class_dir). -/
def docPath : EditedDoc → List Char
  | .lec e => "notes/latex/".data ++ e.name ++ "/".data ++ e.name ++ ".tex".data
  | .sub hw f => "hw/".data ++ hw ++ "/submission/".data ++ f.name

/-- progress._find_edited_files: lecture documents (sorted directory
scan, strict mtime filter) followed by homework submission .tex files
(hw directories sorted, files inside a submission directory in
iteration order), strict mtime filter throughout. -/
def findEditedFiles (latexEntries : List LecEntry) (hwDirs : List HwEntry)
    (since : Nat) : List EditedDoc :=
  ((sortByKey LecEntry.name latexEntries).filter
      (fun e => isLectureDoc e && decide (since < e.mtime))).map EditedDoc.lec
  ++ (sortByKey HwEntry.name hwDirs).flatMap (fun h =>
      if h.isDir && h.hasSubmission then
        (h.subFiles.filter (fun f => hasTexSuffix f.name && decide (since < f.mtime))).map
          (EditedDoc.sub h.name)
      else [])

/-- One file of the sessions directory (name and contents). -/
structure SessFile where
  name : List Char
  content : List Char
deriving DecidableEq, Repr

/-- f.name.startswith("session-") and f.suffix == ".tex". -/
def isSessionFile (f : SessFile) : Bool :=
  ( "session-".data.isPrefixOf f.name) && hasTexSuffix f.name

/-- progress._read_all_sessions: concatenate the (sorted, filtered)
session files with separators; empty when the directory is absent. -/
def readAllSessions (dir : Option (List SessFile)) : List Char :=
  match dir with
  | none => []
  | some files =>
    List.intercalate ( "\n\n".data)
      (((sortByKey SessFile.name files).filter isSessionFile).map (fun f =>
        "--- SESSION: notes/latex/sessions/".data ++ f.name ++ " ---\n".data
          ++ f.content ++ "\n--- END ---".data))

/-- Input of one run_fact_check invocation.  entries is the latex
directory as _find_changed_lectures sees it; lastRun the persisted
cursor loaded at the start; runTs the value time.time() returns at the
line `run_ts = time.time()` — which the code reaches only after the
delta scan; gen the outcome of the generation step agent.arun. -/
structure FCInput where
  entries : List LecEntry
  lastRun : Nat
  runTs : Nat
  gen : Except (List Char) (List Char)
deriving Repr

/-- Observable outcome of a fact-check pass: returned message, the
cursor value written by _save_state (none = state untouched), whether
the report file was written, and the delta that was processed. -/
structure PassOutcome where
  message : List Char
  savedCursor : Option Nat
  reportWritten : Bool
  filesChecked : List LecEntry
deriving DecidableEq, Repr

/-- run_fact_check: short-circuit on an empty delta; on a generation
exception return the failure text without touching report or state; on
success write the report and persist {"last_run": run_ts}. -/
def runFactCheck (inp : FCInput) : PassOutcome :=
  let changed := findChangedLectures inp.entries inp.lastRun
  if changed.isEmpty then
    { message := "No lectures changed since last fact-check.".data,
      savedCursor := none, reportWritten := false, filesChecked := [] }
  else
    match inp.gen with
    | .error e =>
      { message := "Fact-check failed: ".data ++ e,
        savedCursor := none, reportWritten := false, filesChecked := changed }
    | .ok raw =>
      { message := raw, savedCursor := some inp.runTs,
        reportWritten := true, filesChecked := changed }

/-- The part of a whitespace run after its last newline. -/
def afterLastNewline (w : List Char) : List Char :=
  (w.reverse.takeWhile (fun c => c ≠ '\n')).reverse

/-- Match regex \s*\n (greedy \s*, backtracking into the final \n):
succeeds iff the leading whitespace run of t contains a newline, and
then consumes it up to and including its last newline. -/
def consumeWsNewline (t : List Char) : Option (List Char) :=
  let w := t.takeWhile pyIsSpace
  if w.contains '\n' then some (afterLastNewline w ++ t.drop w.length) else none

/-- re.sub(r"^```(?:latex|tex)?\s*\n", "", s) for a stripped s: an
opening code fence, optionally tagged latex or tex (alternatives tried
in that order), followed by whitespace ending in a newline, is removed. -/
def stripOpenFence (s : List Char) : List Char :=
  if "```".data.isPrefixOf s then
    let r := s.drop 3
    match (if "latex".data.isPrefixOf r then consumeWsNewline (r.drop 5) else none) with
    | some x => x
    | none =>
      match (if "tex".data.isPrefixOf r then consumeWsNewline (r.drop 3) else none) with
      | some x => x
      | none =>
        match consumeWsNewline r with
        | some x => x
        | none => s
  else s

/-- re.sub(r"\n```\s*$", "", s) for a stripped s (no trailing
whitespace, so only the exact suffix can match). -/
def stripCloseFence (s : List Char) : List Char :=
  if "\n```".data.isSuffixOf s then s.take (s.length - 4) else s

/-- The wrapper repair of run_progress_update: wrap in the subfile
boilerplate when \documentclass is missing, then append \end{document}
when missing. -/
def ensureWrapper (raw : List Char) : List Char :=
  let r1 :=
    if containsSub ( "\\documentclass".data) raw then raw
    else
      "\\documentclass[../master/master.tex]\x7bsubfiles\x7d\n\n\\begin\x7bdocument\x7d\n\n".data
        ++ raw ++ "\n\n\\end\x7bdocument\x7d\n".data
  if containsSub ( "\\end\x7bdocument\x7d".data) r1 then r1
  else r1 ++ "\n\n\\end\x7bdocument\x7d\n".data

/-- The full post-processing run_progress_update applies to a non-empty
generation output before writing progress.tex. -/
def postprocessProgress (raw0 : List Char) : List Char :=
  ensureWrapper (stripCloseFence (pyStrip (stripOpenFence (pyStrip raw0))))

/-- Input of one run_progress_update invocation; fields as in FCInput,
plus the sessions directory and the current progress.tex. -/
structure PGInput where
  latexEntries : List LecEntry
  hwDirs : List HwEntry
  sessionsDir : Option (List SessFile)
  currentProgress : Option (List Char)
  lastRun : Nat
  runTs : Nat
  gen : Except (List Char) (List Char)
deriving Repr

/-- Observable outcome of a progress pass. -/
structure PGOutcome where
  message : List Char
  savedCursor : Option Nat
  progressWritten : Option (List Char)
deriving DecidableEq, Repr

/-- run_progress_update: short-circuits only when no session files
exist (the edited-files delta does not gate anything); on a generation
exception or an empty generation output it returns a failure text
without writing progress.tex or the state; otherwise it writes the
post-processed narrative and persists {"last_run": run_ts}. -/
def runProgressUpdate (inp : PGInput) : PGOutcome :=
  let _edited := findEditedFiles inp.latexEntries inp.hwDirs inp.lastRun
  let allSessions := readAllSessions inp.sessionsDir
  if allSessions.isEmpty then
    { message := "No sessions to synthesize.".data, savedCursor := none,
      progressWritten := none }
  else
    match inp.gen with
    | .error e =>
      { message := "Progress update failed: ".data ++ e, savedCursor := none,
        progressWritten := none }
    | .ok raw =>
      if (pyStrip raw).isEmpty then
        { message := "Progress agent returned empty response.".data,
          savedCursor := none, progressWritten := none }
      else
        { message := postprocessProgress raw, savedCursor := some inp.runTs,
          progressWritten := some (postprocessProgress raw) }

theorem mem_findChangedLectures (entries : List LecEntry) (since : Nat) (e : LecEntry) :
    e ∈ findChangedLectures entries since ↔
      e ∈ entries ∧ isLectureDoc e = true ∧ since < e.mtime := by
  unfold findChangedLectures
  rw [List.mem_filter, mem_sortByKey]
  simp [and_assoc]

theorem findChangedLectures_eq_nil (entries : List LecEntry) (since : Nat)
    (h : ∀ e ∈ entries, isLectureDoc e = true → e.mtime ≤ since) :
    findChangedLectures entries since = [] := by
  unfold findChangedLectures
  rw [List.filter_eq_nil_iff]
  intro a ha
  have ha2 := (mem_sortByKey LecEntry.name a entries).mp ha
  simp only [Bool.and_eq_true, decide_eq_true_eq, not_and]
  intro hdoc hm
  exact absurd hm (by have := h a ha2 hdoc; omega)

/-- C3 (amended): the fact-check pass short-circuits on an empty delta
(no report, no cursor write) and, run twice in succession on an
unchanged workspace after a successful first run, the second run is the
"nothing changed" no-op; the progress pass short-circuits only when no
session files exist (then it too leaves cursor and progress.tex
untouched). -/
theorem C3_pass_idempotence :
    (∀ inp : FCInput, findChangedLectures inp.entries inp.lastRun = [] →
      runFactCheck inp =
        { message := "No lectures changed since last fact-check.".data,
          savedCursor := none, reportWritten := false, filesChecked := [] }) ∧
    (∀ (inp : FCInput) (raw : List Char) (ts2 : Nat) (g2 : Except (List Char) (List Char)),
      inp.gen = .ok raw →
      (∀ e ∈ inp.entries, e.mtime ≤ inp.runTs) →
      runFactCheck
          { entries := inp.entries
            lastRun := (runFactCheck inp).savedCursor.getD inp.lastRun
            runTs := ts2
            gen := g2 } =
        { message := "No lectures changed since last fact-check.".data,
          savedCursor := none, reportWritten := false, filesChecked := [] }) ∧
    (∀ inp : PGInput, readAllSessions inp.sessionsDir = [] →
      runProgressUpdate inp =
        { message := "No sessions to synthesize.".data,
          savedCursor := none, progressWritten := none }) := by
  refine ⟨?_, ?_, ?_⟩
  · intro inp h
    unfold runFactCheck
    simp [h]
  · intro inp raw ts2 g2 hgen hle
    by_cases hE : (findChangedLectures inp.entries inp.lastRun).isEmpty
    · have h0 : findChangedLectures inp.entries inp.lastRun = [] := List.isEmpty_iff.mp hE
      have h1 : (runFactCheck inp).savedCursor = none := by
        unfold runFactCheck
        simp [h0]
      rw [h1]
      unfold runFactCheck
      simp [h0]
    · have h1 : (runFactCheck inp).savedCursor = some inp.runTs := by
        unfold runFactCheck
        rw [hgen]
        simp only [Bool.not_eq_true] at hE
        simp [hE]
      rw [h1]
      have hdelta2 : findChangedLectures inp.entries inp.runTs = [] :=
        findChangedLectures_eq_nil _ _ (fun e he _ => hle e he)
      unfold runFactCheck
      simp [hdelta2]
  · intro inp h
    unfold runProgressUpdate
    simp [h]

/-- The concrete progress scenario for the C3 counterexample: one
session exists, one lecture exists with mtime 5, the cursor (10) is
ahead of every mtime, so the edited-files delta is empty; the
generation step succeeds. -/
def cPG : PGInput :=
  { latexEntries := [⟨ "lec01".data, true, true, 5⟩],
    hwDirs := [],
    sessionsDir := some [⟨ "session-2026-02-06.tex".data, "body".data⟩],
    currentProgress := some ( "old".data),
    lastRun := 10, runTs := 20,
    gen := .ok ( "N".data) }

/-- C3 (counterexample): with an empty delta but existing sessions the
progress pass is NOT a no-op: it performs its generation/write work and
advances the cursor, and a second run with no intervening edits does the
same again — refuting "empty delta set ⇒ no downstream work and no
cursor advance" and "second call is a no-op" for the progress pass. -/
theorem C3_counterexample :
    findEditedFiles cPG.latexEntries cPG.hwDirs cPG.lastRun = [] ∧
    (runProgressUpdate cPG).savedCursor = some 20 ∧
    (runProgressUpdate cPG).progressWritten ≠ none ∧
    (runProgressUpdate { cPG with lastRun := 20, runTs := 30 }).savedCursor = some 30 ∧
    (runProgressUpdate { cPG with lastRun := 20, runTs := 30 }).progressWritten ≠ none := by
  decide

/-- The concrete fact-check scenario used by the C3 witness. -/
def wFC : FCInput :=
  { entries := [⟨ "lec01".data, true, true, 5⟩], lastRun := 0, runTs := 9,
    gen := .ok ( "[]".data) }

/-- Witness for C3: the second fact-check run after a successful first
run on an unchanged workspace reports "nothing changed", and the
progress pass with no sessions short-circuits. -/
theorem C3_pass_idempotence_witness :
    runFactCheck
        { entries := wFC.entries
          lastRun := (runFactCheck wFC).savedCursor.getD wFC.lastRun
          runTs := 11
          gen := .ok ( "[]".data) } =
      { message := "No lectures changed since last fact-check.".data,
        savedCursor := none, reportWritten := false, filesChecked := [] } ∧
    runProgressUpdate
        { latexEntries := []
          hwDirs := []
          sessionsDir := none
          currentProgress := none
          lastRun := 0
          runTs := 0
          gen := .ok ( "x".data) } =
      { message := "No sessions to synthesize.".data,
        savedCursor := none, progressWritten := none } :=
  ⟨C3_pass_idempotence.2.1 wFC ( "[]".data) 11 (.ok ( "[]".data)) rfl (by decide),
    C3_pass_idempotence.2.2 _ (by decide)⟩

/-- C4: an exception in the generation step of either pass is caught
and surfaced as a textual failure message ("Fact-check failed: …" /
"Progress update failed: …"), nothing is written (no report, no
progress.tex), the cursor is not advanced, and consequently a later run
on the unchanged workspace recomputes exactly the same delta. -/
theorem C4_failure_semantics :
    (∀ (inp : FCInput) (e : List Char), inp.gen = .error e →
      findChangedLectures inp.entries inp.lastRun ≠ [] →
      runFactCheck inp =
        { message := "Fact-check failed: ".data ++ e,
          savedCursor := none, reportWritten := false,
          filesChecked := findChangedLectures inp.entries inp.lastRun }) ∧
    (∀ (inp : PGInput) (e : List Char), inp.gen = .error e →
      readAllSessions inp.sessionsDir ≠ [] →
      runProgressUpdate inp =
        { message := "Progress update failed: ".data ++ e,
          savedCursor := none, progressWritten := none }) ∧
    (∀ (inp : FCInput) (e : List Char), inp.gen = .error e →
      findChangedLectures inp.entries ((runFactCheck inp).savedCursor.getD inp.lastRun) =
        findChangedLectures inp.entries inp.lastRun) := by
  refine ⟨?_, ?_, ?_⟩
  · intro inp e hgen hne
    have hE : (findChangedLectures inp.entries inp.lastRun).isEmpty = false :=
      List.isEmpty_eq_false.mpr hne
    unfold runFactCheck
    rw [hgen]
    simp [hE]
  · intro inp e hgen hne
    have hE : (readAllSessions inp.sessionsDir).isEmpty = false :=
      List.isEmpty_eq_false.mpr hne
    unfold runProgressUpdate
    rw [hgen]
    simp [hE]
  · intro inp e hgen
    have h1 : (runFactCheck inp).savedCursor = none := by
      unfold runFactCheck
      rw [hgen]
      by_cases hE : (findChangedLectures inp.entries inp.lastRun).isEmpty <;> simp [hE]
    rw [h1, Option.getD_none]

/-- The concrete failing fact-check scenario used by the C4 witness. -/
def wFCerr : FCInput :=
  { entries := [⟨ "lec01".data, true, true, 5⟩], lastRun := 0, runTs := 9,
    gen := .error ( "boom".data) }

/-- The concrete failing progress scenario used by the C4 witness. -/
def wPGerr : PGInput :=
  { latexEntries := [⟨ "lec01".data, true, true, 5⟩],
    hwDirs := [],
    sessionsDir := some [⟨ "session-2026-02-06.tex".data, "body".data⟩],
    currentProgress := none, lastRun := 0, runTs := 9,
    gen := .error ( "boom".data) }

/-- Witness for C4 at concrete failing runs of both passes. -/
theorem C4_failure_semantics_witness :
    runFactCheck wFCerr =
      { message := "Fact-check failed: boom".data,
        savedCursor := none, reportWritten := false,
        filesChecked := findChangedLectures wFCerr.entries wFCerr.lastRun } ∧
    runProgressUpdate wPGerr =
      { message := "Progress update failed: boom".data,
        savedCursor := none, progressWritten := none } ∧
    findChangedLectures wFCerr.entries ((runFactCheck wFCerr).savedCursor.getD wFCerr.lastRun) =
      findChangedLectures wFCerr.entries wFCerr.lastRun :=
  ⟨C4_failure_semantics.1 wFCerr ( "boom".data) rfl (by decide),
    C4_failure_semantics.2.1 wPGerr ( "boom".data) rfl (by decide),
    C4_failure_semantics.2.2 wFCerr ( "boom".data) rfl⟩

/-- Pass 1 of the C2 counterexample: the scan sees only lec01 (mtime 5);
lec02 is written (mtime 7) after the scan but before the code reaches
`run_ts = time.time()`, which returns 10. -/
def cFC1 : FCInput :=
  { entries := [⟨ "lec01".data, true, true, 5⟩], lastRun := 0, runTs := 10,
    gen := .ok ( "[]".data) }

/-- Pass 2 of the C2 counterexample: the workspace now contains lec02
(mtime 7), and the cursor loaded is the 10 persisted by pass 1. -/
def cFC2 : FCInput :=
  { entries := [⟨ "lec01".data, true, true, 5⟩, ⟨ "lec02".data, true, true, 7⟩],
    lastRun := 10, runTs := 42,
    gen := .ok ( "[]".data) }

/-- C2 (counterexample): run_ts is sampled after the delta scan, so the
persisted cursor (10) can exceed the mtime (7) of a document written
concurrently with the pass; that document is in neither this pass's
delta nor the next pass's delta — it is permanently missed, refuting
the claimed "captured at the start of that pass / never missed"
guarantee. -/
theorem C2_counterexample :
    (runFactCheck cFC1).savedCursor = some 10 ∧
    (⟨ "lec02".data, true, true, 7⟩ : LecEntry) ∉ (runFactCheck cFC1).filesChecked ∧
    (⟨ "lec02".data, true, true, 7⟩ : LecEntry) ∉ findChangedLectures cFC2.entries cFC2.lastRun ∧
    runFactCheck cFC2 =
      { message := "No lectures changed since last fact-check.".data,
        savedCursor := none, reportWritten := false, filesChecked := [] } := by
  decide

/-- C2 (amended): on a successful pass with a non-empty delta the
persisted cursor equals the single wall-clock sample run_ts — taken
after the delta scan and before the generation step, never a
per-document mtime — for both passes; consequently a document written
after that sample (mtime > run_ts) always appears in the next pass's
delta, while one written between the scan and the sample may be missed
for good (see the counterexample). -/
theorem C2_cursor_semantics :
    (∀ (inp : FCInput) (raw : List Char), inp.gen = .ok raw →
      findChangedLectures inp.entries inp.lastRun ≠ [] →
      (runFactCheck inp).savedCursor = some inp.runTs) ∧
    (∀ (inp : PGInput) (raw : List Char), inp.gen = .ok raw →
      readAllSessions inp.sessionsDir ≠ [] → pyStrip raw ≠ [] →
      (runProgressUpdate inp).savedCursor = some inp.runTs) ∧
    (∀ (inp : FCInput) (raw : List Char) (entries2 : List LecEntry) (e : LecEntry),
      inp.gen = .ok raw →
      findChangedLectures inp.entries inp.lastRun ≠ [] →
      e ∈ entries2 → isLectureDoc e = true → inp.runTs < e.mtime →
      e ∈ findChangedLectures entries2 ((runFactCheck inp).savedCursor.getD inp.lastRun)) := by
  have hfc : ∀ (inp : FCInput) (raw : List Char), inp.gen = .ok raw →
      findChangedLectures inp.entries inp.lastRun ≠ [] →
      (runFactCheck inp).savedCursor = some inp.runTs := by
    intro inp raw hgen hne
    have hE : (findChangedLectures inp.entries inp.lastRun).isEmpty = false :=
      List.isEmpty_eq_false.mpr hne
    unfold runFactCheck
    rw [hgen]
    simp [hE]
  refine ⟨hfc, ?_, ?_⟩
  · intro inp raw hgen hne hnz
    have hE : (readAllSessions inp.sessionsDir).isEmpty = false :=
      List.isEmpty_eq_false.mpr hne
    have hZ : (pyStrip raw).isEmpty = false := List.isEmpty_eq_false.mpr hnz
    unfold runProgressUpdate
    rw [hgen]
    simp [hE, hZ]
  · intro inp raw entries2 e hgen hne he hdoc hlt
    rw [hfc inp raw hgen hne]
    exact (mem_findChangedLectures entries2 inp.runTs e).mpr ⟨he, hdoc, hlt⟩

/-- Witness for C2 at concrete successful runs: the fact-check cursor
is the run_ts sample (10), the progress cursor likewise (20), and a
document with mtime 11 > run_ts is found by the next fact-check delta. -/
theorem C2_cursor_semantics_witness :
    (runFactCheck cFC1).savedCursor = some 10 ∧
    (runProgressUpdate cPG).savedCursor = some 20 ∧
    (⟨ "lec03".data, true, true, 11⟩ : LecEntry) ∈
      findChangedLectures [⟨ "lec03".data, true, true, 11⟩]
        ((runFactCheck cFC1).savedCursor.getD cFC1.lastRun) :=
  ⟨C2_cursor_semantics.1 cFC1 ( "[]".data) rfl (by decide),
    C2_cursor_semantics.2.1 cPG ( "N".data) rfl (by decide) (by decide),
    C2_cursor_semantics.2.2 cFC1 ( "[]".data) [⟨ "lec03".data, true, true, 11⟩]
      ⟨ "lec03".data, true, true, 11⟩ rfl (by decide) (by decide) (by decide) (by decide)⟩

theorem mem_findEditedFiles_lec (latex : List LecEntry) (hw : List HwEntry)
    (since : Nat) (e : LecEntry) :
    EditedDoc.lec e ∈ findEditedFiles latex hw since ↔
      e ∈ latex ∧ isLectureDoc e = true ∧ since < e.mtime := by
  unfold findEditedFiles
  rw [List.mem_append]
  constructor
  · rintro (h | h)
    · rw [List.mem_map] at h
      rcases h with ⟨a, ha, hae⟩
      rcases List.mem_filter.mp ha with ⟨ha2, hp⟩
      injection hae with hae
      subst hae
      simp only [Bool.and_eq_true, decide_eq_true_eq] at hp
      exact ⟨(mem_sortByKey _ _ _).mp ha2, hp.1, hp.2⟩
    · exfalso
      rw [List.mem_flatMap] at h
      rcases h with ⟨hh, _, hmem⟩
      by_cases hc : (hh.isDir && hh.hasSubmission) = true
      · rw [if_pos hc, List.mem_map] at hmem
        rcases hmem with ⟨g, _, hge⟩
        exact EditedDoc.noConfusion hge
      · rw [if_neg hc] at hmem
        exact List.not_mem_nil _ hmem
  · rintro ⟨he, hdoc, hlt⟩
    left
    rw [List.mem_map]
    exact ⟨e, List.mem_filter.mpr ⟨(mem_sortByKey _ _ _).mpr he, by simp [hdoc, hlt]⟩, rfl⟩

theorem mem_findEditedFiles_sub (latex : List LecEntry) (hw : List HwEntry)
    (since : Nat) (hwName : List Char) (f : SubFile) :
    EditedDoc.sub hwName f ∈ findEditedFiles latex hw since ↔
      ∃ h, h ∈ hw ∧ h.name = hwName ∧ h.isDir = true ∧ h.hasSubmission = true ∧
        f ∈ h.subFiles ∧ hasTexSuffix f.name = true ∧ since < f.mtime := by
  unfold findEditedFiles
  rw [List.mem_append]
  constructor
  · rintro (h | h)
    · exfalso
      rw [List.mem_map] at h
      rcases h with ⟨a, _, hae⟩
      exact EditedDoc.noConfusion hae
    · rw [List.mem_flatMap] at h
      rcases h with ⟨hh, hhmem, hmem⟩
      by_cases hc : (hh.isDir && hh.hasSubmission) = true
      · rw [if_pos hc, List.mem_map] at hmem
        rcases hmem with ⟨g, hg, hge⟩
        rcases List.mem_filter.mp hg with ⟨hg2, hp⟩
        injection hge with hname hgf
        subst hgf
        simp only [Bool.and_eq_true, decide_eq_true_eq] at hp hc
        exact ⟨hh, (mem_sortByKey _ _ _).mp hhmem, hname, hc.1, hc.2, hg2, hp.1, hp.2⟩
      · rw [if_neg hc] at hmem
        exact absurd hmem (List.not_mem_nil _)
  · rintro ⟨h, hh, hname, h1, h2, hf, hs, hm⟩
    right
    rw [List.mem_flatMap]
    refine ⟨h, (mem_sortByKey _ _ _).mpr hh, ?_⟩
    rw [if_pos (by simp [h1, h2]), List.mem_map]
    exact ⟨f, List.mem_filter.mpr ⟨hf, by simp [hs, hm]⟩, by rw [hname]⟩

/-- The concrete progress scan for the C7 counterexample: one homework
submission directory whose iteration order lists b.tex before a.tex. -/
def cHw : List HwEntry :=
  [⟨ "hw1".data, true, true, [⟨ "b.tex".data, 5⟩, ⟨ "a.tex".data, 6⟩]⟩]

/-- C7 (counterexample): progress._find_edited_files does not sort the
files inside a submission directory, so its result is not in ascending
order of the document identifier: with iteration order [b.tex, a.tex]
the delta lists hw/hw1/submission/b.tex before hw/hw1/submission/a.tex. -/
theorem C7_counterexample :
    findEditedFiles [] cHw 0 =
      [EditedDoc.sub ( "hw1".data) ⟨ "b.tex".data, 5⟩,
        EditedDoc.sub ( "hw1".data) ⟨ "a.tex".data, 6⟩] ∧
    ¬ List.Pairwise (fun a b => lexLe (docPath a) (docPath b) = true)
      (findEditedFiles [] cHw 0) := by
  decide

/-- C7 (amended): both delta scans return exactly the documents whose
mtime strictly exceeds the cursor (a document with mtime equal to the
cursor is excluded); the fact-check delta is sorted ascending by
lecture name, and with cursor 0 it returns every existing lecture
document (their mtimes being positive); the progress delta applies the
same strict filter to lecture and submission documents, but only the
lecture part and the homework-directory order are sorted — files within
one submission directory stay in directory-iteration order. -/
theorem C7_delta_characterization :
    (∀ (entries : List LecEntry) (since : Nat) (e : LecEntry),
      e ∈ findChangedLectures entries since ↔
        e ∈ entries ∧ isLectureDoc e = true ∧ since < e.mtime) ∧
    (∀ (entries : List LecEntry) (since : Nat),
      List.Pairwise (fun a b => lexLe a.name b.name = true)
        (findChangedLectures entries since)) ∧
    (∀ entries : List LecEntry,
      (∀ e ∈ entries, isLectureDoc e = true → 0 < e.mtime) →
      ∀ e, e ∈ findChangedLectures entries 0 ↔ e ∈ entries ∧ isLectureDoc e = true) ∧
    (∀ (latex : List LecEntry) (hw : List HwEntry) (since : Nat) (e : LecEntry),
      EditedDoc.lec e ∈ findEditedFiles latex hw since ↔
        e ∈ latex ∧ isLectureDoc e = true ∧ since < e.mtime) ∧
    (∀ (latex : List LecEntry) (hw : List HwEntry) (since : Nat)
        (hwName : List Char) (f : SubFile),
      EditedDoc.sub hwName f ∈ findEditedFiles latex hw since ↔
        ∃ h, h ∈ hw ∧ h.name = hwName ∧ h.isDir = true ∧ h.hasSubmission = true ∧
          f ∈ h.subFiles ∧ hasTexSuffix f.name = true ∧ since < f.mtime) := by
  refine ⟨mem_findChangedLectures, ?_, ?_, mem_findEditedFiles_lec, mem_findEditedFiles_sub⟩
  · intro entries since
    exact (pairwise_sortByKey LecEntry.name entries).filter _
  · intro entries hpos e
    rw [mem_findChangedLectures]
    constructor
    · rintro ⟨he, hdoc, _⟩
      exact ⟨he, hdoc⟩
    · rintro ⟨he, hdoc⟩
      exact ⟨he, hdoc, hpos e he hdoc⟩

/-- Witness for C7: the cursor-0 characterization applied to a concrete
one-lecture workspace. -/
theorem C7_delta_characterization_witness :
    (∀ e ∈ [(⟨ "lec01".data, true, true, 5⟩ : LecEntry)], isLectureDoc e = true → 0 < e.mtime) ∧
    ((⟨ "lec01".data, true, true, 5⟩ : LecEntry) ∈
        findChangedLectures [⟨ "lec01".data, true, true, 5⟩] 0 ↔
      (⟨ "lec01".data, true, true, 5⟩ : LecEntry) ∈
          [(⟨ "lec01".data, true, true, 5⟩ : LecEntry)] ∧
        isLectureDoc ⟨ "lec01".data, true, true, 5⟩ = true) :=
  ⟨by decide,
    C7_delta_characterization.2.2.1 [⟨ "lec01".data, true, true, 5⟩] (by decide)
      ⟨ "lec01".data, true, true, 5⟩⟩

/-! ## context.py — metadata extraction

The three regexes of context.py are embedded as character scanners with
the exact semantics of re.finditer / re.search on them:
_RE_RENEW   = \renewcommand\{\(\w+)\}\{(.+?)\}          (no DOTALL)
_RE_SUMMARY = \begin{lecturesummary}(.*?)\end{lecturesummary}   (DOTALL)
_RE_SUMMARYBOX likewise for summarybox. -/

/-- Python str.find: index of the first occurrence of pat. -/
def findSub (pat : List Char) : List Char → Option Nat
  | [] => if pat.isEmpty then some 0 else none
  | c :: t => if pat.isPrefixOf (c :: t) then some 0 else (findSub pat t).map (· + 1)

/-- Python \w restricted to ASCII (letters, digits, underscore). -/
def isWordChar (c : Char) : Bool :=
  (('a' ≤ c) && (c ≤ 'z')) || (('A' ≤ c) && (c ≤ 'Z')) || (('0' ≤ c) && (c ≤ '9')) || c = '_'

/-- Try _RE_RENEW at the head of s: the literal "\renewcommand{\",
a nonempty greedy \w+ capture, "}{", then the lazy (.+?) capture — the
shortest nonempty newline-free run followed by "}".  Returns the two
captures and the rest of the input after the match. -/
def matchRenew (s : List Char) : Option ((List Char × List Char) × List Char) :=
  if ( "\\renewcommand\x7b\\".data).isPrefixOf s then
    let r := s.drop ( "\\renewcommand\x7b\\".data).length
    let w := r.takeWhile isWordChar
    if w.isEmpty then none
    else
      let r2 := r.drop w.length
      if ( "\x7d\x7b".data).isPrefixOf r2 then
        let u := r2.drop 2
        match findSub ( "\x7d".data) (u.drop 1) with
        | none => none
        | some j =>
          let v := u.take (j + 1)
          if v.contains '\n' then none
          else some ((w, v), u.drop (j + 2))
      else none
  else none

/-- re.finditer(_RE_RENEW, s): scan left to right, non-overlapping,
resuming after each match (fuel is the input length; every step
consumes at least one character). -/
def renewMatchesAux : Nat → List Char → List (List Char × List Char)
  | 0, _ => []
  | fuel + 1, s =>
    match s with
    | [] => []
    | c :: t =>
      match matchRenew (c :: t) with
      | some (m, rest) => m :: renewMatchesAux fuel rest
      | none => renewMatchesAux fuel t

/-- All _RE_RENEW matches of s, in order. -/
def renewMatches (s : List Char) : List (List Char × List Char) :=
  renewMatchesAux s.length s

/-- re.search of a DOTALL \begin…(.*?)\end… block: everything between
the first begin token and the first end token after it. -/
def firstBlock (b e s : List Char) : Option (List Char) :=
  match findSub b s with
  | none => none
  | some i =>
    let after := s.drop (i + b.length)
    match findSub e after with
    | none => none
    | some j => some (after.take j)

/-- re.finditer of a DOTALL \begin…(.*?)\end… block (non-overlapping,
left to right; fuel as in renewMatchesAux). -/
def allBlocksAux (b e : List Char) : Nat → List Char → List (List Char)
  | 0, _ => []
  | fuel + 1, s =>
    match findSub b s with
    | none => []
    | some i =>
      let after := s.drop (i + b.length)
      match findSub e after with
      | none => []
      | some j => after.take j :: allBlocksAux b e fuel (after.drop (j + e.length))

/-- All blocks delimited by b … e in s, in order. -/
def allBlocks (b e s : List Char) : List (List Char) :=
  allBlocksAux b e (s.length + 1) s

def lecSummaryBegin : List Char := "\\begin\x7blecturesummary\x7d".data

def lecSummaryEnd : List Char := "\\end\x7blecturesummary\x7d".data

def summaryboxBegin : List Char := "\\begin\x7bsummarybox\x7d".data

def summaryboxEnd : List Char := "\\end\x7bsummarybox\x7d".data

/-- The metadata record extract_lecture_metadata produces; a missing
\renewcommand field is an absent dict key (none here), a missing
summary is the empty string, summaryboxes is always a (possibly empty)
list. -/
structure LectureMeta where
  num : Option (List Char)
  date : Option (List Char)
  topic : Option (List Char)
  summary : List Char
  summaryboxes : List (List Char)
deriving DecidableEq, Repr

/-- One step of the finditer loop over field_map: update the field the
match names (lecturenum/lecturedate/lecturetopic); ignore others. -/
def applyRenew (m : LectureMeta) (nv : List Char × List Char) : LectureMeta :=
  if nv.1 = "lecturenum".data then { m with num := some nv.2 }
  else if nv.1 = "lecturedate".data then { m with date := some nv.2 }
  else if nv.1 = "lecturetopic".data then { m with topic := some nv.2 }
  else m

/-- context.extract_lecture_metadata: fold the renew matches in order
(so a repeated field keeps its last occurrence), take the first
lecturesummary block (stripped, defaulting to ""), and all summarybox
blocks (each stripped).  Total on every input — no failure path. -/
def extractLectureMetadata (texContent : List Char) : LectureMeta :=
  let base := (renewMatches texContent).foldl applyRenew ⟨none, none, none, [], []⟩
  { base with
    summary := ((firstBlock lecSummaryBegin lecSummaryEnd texContent).map pyStrip).getD []
    summaryboxes := (allBlocks summaryboxBegin summaryboxEnd texContent).map pyStrip }

/-- The last value among the matches that name a given field. -/
def lastField (fieldName s : List Char) : Option (List Char) :=
  (((renewMatches s).reverse).find? (fun nv => nv.1 == fieldName)).map (fun nv => nv.2)

theorem foldl_applyRenew_num (l : List (List Char × List Char)) (m : LectureMeta) :
    (l.foldl applyRenew m).num =
      (l.reverse.find? (fun nv => nv.1 == "lecturenum".data)).elim m.num
        (fun nv => some nv.2) := by
  induction l using List.reverseRecOn generalizing m with
  | nil => simp
  | append_singleton l nv ih =>
    simp only [List.foldl_append, List.foldl_cons, List.foldl_nil, List.reverse_append,
      List.reverse_cons, List.reverse_nil, List.nil_append, List.cons_append,
      List.singleton_append]
    by_cases h : nv.1 = "lecturenum".data
    · rw [List.find?_cons_of_pos _ (by simpa using h)]
      simp [applyRenew, h]
    · rw [List.find?_cons_of_neg _ (by simpa using h)]
      have h2 : (applyRenew (l.foldl applyRenew m) nv).num = (l.foldl applyRenew m).num := by
        unfold applyRenew
        split_ifs <;> simp_all
      rw [h2]
      exact ih m

theorem foldl_applyRenew_date (l : List (List Char × List Char)) (m : LectureMeta) :
    (l.foldl applyRenew m).date =
      (l.reverse.find? (fun nv => nv.1 == "lecturedate".data)).elim m.date
        (fun nv => some nv.2) := by
  induction l using List.reverseRecOn generalizing m with
  | nil => simp
  | append_singleton l nv ih =>
    simp only [List.foldl_append, List.foldl_cons, List.foldl_nil, List.reverse_append,
      List.reverse_cons, List.reverse_nil, List.nil_append, List.cons_append,
      List.singleton_append]
    by_cases h : nv.1 = "lecturedate".data
    · rw [List.find?_cons_of_pos _ (by simpa using h)]
      have hne : ¬ nv.1 = "lecturenum".data := by
        rw [h]
        decide
      simp [applyRenew, h, hne]
    · rw [List.find?_cons_of_neg _ (by simpa using h)]
      have h2 : (applyRenew (l.foldl applyRenew m) nv).date = (l.foldl applyRenew m).date := by
        unfold applyRenew
        split_ifs <;> simp_all
      rw [h2]
      exact ih m

theorem foldl_applyRenew_topic (l : List (List Char × List Char)) (m : LectureMeta) :
    (l.foldl applyRenew m).topic =
      (l.reverse.find? (fun nv => nv.1 == "lecturetopic".data)).elim m.topic
        (fun nv => some nv.2) := by
  induction l using List.reverseRecOn generalizing m with
  | nil => simp
  | append_singleton l nv ih =>
    simp only [List.foldl_append, List.foldl_cons, List.foldl_nil, List.reverse_append,
      List.reverse_cons, List.reverse_nil, List.nil_append, List.cons_append,
      List.singleton_append]
    by_cases h : nv.1 = "lecturetopic".data
    · rw [List.find?_cons_of_pos _ (by simpa using h)]
      have hne1 : ¬ nv.1 = "lecturenum".data := by
        rw [h]
        decide
      have hne2 : ¬ nv.1 = "lecturedate".data := by
        rw [h]
        decide
      simp [applyRenew, h, hne1, hne2]
    · rw [List.find?_cons_of_neg _ (by simpa using h)]
      have h2 : (applyRenew (l.foldl applyRenew m) nv).topic = (l.foldl applyRenew m).topic := by
        unfold applyRenew
        split_ifs <;> simp_all
      rw [h2]
      exact ih m

/-- C10: metadata extraction is a total function of the input text: a
field with no macro-redefinition stays absent (none) and a missing
summary defaults to "" rather than failing; when the same field is
redefined more than once the LAST occurrence wins (the fold over the
match stream equals the last matching value); only the FIRST
lecture-summary block is extracted, while ALL summary-box blocks are. -/
theorem C10_metadata_extraction (s : List Char) :
    (extractLectureMetadata s).num = lastField ( "lecturenum".data) s ∧
    (extractLectureMetadata s).date = lastField ( "lecturedate".data) s ∧
    (extractLectureMetadata s).topic = lastField ( "lecturetopic".data) s ∧
    (extractLectureMetadata s).summary =
      ((firstBlock lecSummaryBegin lecSummaryEnd s).map pyStrip).getD [] ∧
    (extractLectureMetadata s).summaryboxes =
      (allBlocks summaryboxBegin summaryboxEnd s).map pyStrip := by
  refine ⟨?_, ?_, ?_, rfl, rfl⟩
  · show ((renewMatches s).foldl applyRenew ⟨none, none, none, [], []⟩).num = _
    rw [foldl_applyRenew_num]
    unfold lastField
    cases (renewMatches s).reverse.find? (fun nv => nv.1 == "lecturenum".data) <;> rfl
  · show ((renewMatches s).foldl applyRenew ⟨none, none, none, [], []⟩).date = _
    rw [foldl_applyRenew_date]
    unfold lastField
    cases (renewMatches s).reverse.find? (fun nv => nv.1 == "lecturedate".data) <;> rfl
  · show ((renewMatches s).foldl applyRenew ⟨none, none, none, [], []⟩).topic = _
    rw [foldl_applyRenew_topic]
    unfold lastField
    cases (renewMatches s).reverse.find? (fun nv => nv.1 == "lecturetopic".data) <;> rfl

/-! ## context.py — page map (_load_page_map) and context assembly

The \contentsline regex of _load_page_map is embedded as a scanner:
\\contentsline\s*\{(?:section|subsection)\}
\{(?:\\numberline\s*\{[^}]*\})?(.+?)\}\{(\d+)\}   (no DOTALL). -/

def isAsciiLetter (c : Char) : Bool :=
  (('a' ≤ c) && (c ≤ 'z')) || (('A' ≤ c) && (c ≤ 'Z'))

/-- int() of a digit string. -/
def digitsToNat (ds : List Char) : Nat :=
  ds.foldl (fun n c => n * 10 + (c.toNat - 48)) 0

/-- "}{" then greedy \d+ then "}" — the page-number tail that must
follow the lazy title capture. -/
def checkPageSuffix (t : List Char) : Option (Nat × List Char) :=
  if ( "\x7d\x7b".data).isPrefixOf t then
    let d := (t.drop 2).takeWhile Char.isDigit
    if d.isEmpty then none
    else if ( "\x7d".data).isPrefixOf ((t.drop 2).drop d.length) then
      some (digitsToNat d, (t.drop 2).drop (d.length + 1))
    else none
  else none

/-- The lazy (.+?) title capture: grow the (newline-free, nonempty)
title one character at a time until the page tail parses. -/
def titlePageScan (acc : List Char) : List Char → Option (List Char × Nat × List Char)
  | [] => none
  | c :: t =>
    if c = '\n' then none
    else
      match checkPageSuffix t with
      | some (page, rest) => some (acc ++ [c], page, rest)
      | none => titlePageScan (acc ++ [c]) t

/-- Title-and-page parse after the second "{": optionally consume a
\numberline\s*\{[^}]*\} group first (falling back to no group if the
rest of the match then fails, as regex backtracking does). -/
def parseTitlePage (s0 : List Char) : Option (List Char × Nat × List Char) :=
  let attempt :=
    if ( "\\numberline".data).isPrefixOf s0 then
      let r := (s0.drop ( "\\numberline".data).length).dropWhile pyIsSpace
      match r with
      | '\x7b' :: r3 =>
        let inner := r3.takeWhile (fun c => c ≠ '\x7d')
        match r3.drop inner.length with
        | '\x7d' :: r5 => titlePageScan [] r5
        | _ => none
      | _ => none
    else none
  match attempt with
  | some x => some x
  | none => titlePageScan [] s0

/-- Try the whole \contentsline pattern at the head of s; returns
(raw title capture, page) and the rest after the match. -/
def matchContentsline (s : List Char) : Option ((List Char × Nat) × List Char) :=
  if ( "\\contentsline".data).isPrefixOf s then
    let r := (s.drop ( "\\contentsline".data).length).dropWhile pyIsSpace
    match r with
    | '\x7b' :: r2 =>
      let sect :=
        if ( "section\x7d".data).isPrefixOf r2 then
          some (r2.drop ( "section\x7d".data).length)
        else if ( "subsection\x7d".data).isPrefixOf r2 then
          some (r2.drop ( "subsection\x7d".data).length)
        else none
      match sect with
      | some r3 =>
        match r3 with
        | '\x7b' :: r4 =>
          match parseTitlePage r4 with
          | some (title, page, rest) => some ((title, page), rest)
          | none => none
        | _ => none
      | none => none
    | _ => none
  else none

/-- re.finditer over the \contentsline pattern (non-overlapping, left
to right; fuel as before). -/
def contentslineMatchesAux : Nat → List Char → List (List Char × Nat)
  | 0, _ => []
  | fuel + 1, s =>
    match s with
    | [] => []
    | c :: t =>
      match matchContentsline (c :: t) with
      | some (m, rest) => m :: contentslineMatchesAux fuel rest
      | none => contentslineMatchesAux fuel t

/-- All \contentsline captures of an .aux file, in order. -/
def contentslineMatches (s : List Char) : List (List Char × Nat) :=
  contentslineMatchesAux s.length s

/-- re.sub(r"\\[a-zA-Z]+\s*", "", title): drop each backslash-command
together with its trailing whitespace. -/
def stripCommandsAux : Nat → List Char → List Char
  | 0, s => s
  | fuel + 1, s =>
    match s with
    | [] => []
    | '\\' :: t =>
      let letters := t.takeWhile isAsciiLetter
      if letters.isEmpty then '\\' :: stripCommandsAux fuel t
      else stripCommandsAux fuel ((t.drop letters.length).dropWhile pyIsSpace)
    | c :: t => c :: stripCommandsAux fuel t

def stripCommands (s : List Char) : List Char := stripCommandsAux s.length s

/-- re.sub(r"\s+", " ", s): collapse whitespace runs to single spaces
(fuelled like listReplaceAux so that it computes structurally). -/
def collapseWsAux : Nat → List Char → List Char
  | 0, s => s
  | _ + 1, [] => []
  | fuel + 1, c :: t =>
    if pyIsSpace c then ' ' :: collapseWsAux fuel (t.dropWhile pyIsSpace)
    else c :: collapseWsAux fuel t

def collapseWs (s : List Char) : List Char := collapseWsAux s.length s

/-- The fixed ordered cleanup _load_page_map applies to a raw title. -/
def cleanTitle (title : List Char) : List Char :=
  pyStrip (collapseWs (listReplace ( "$".data) []
    (listReplace ( "\x7d".data) []
      (listReplace ( "\x7b".data) []
        (listReplace ( "--".data) ( "–".data)
          (listReplace ( "---".data) ( "—".data)
            (listReplace ( "\\&".data) ( "&".data)
              (stripCommands (pyStrip title)))))))))

/-- dict insertion with Python semantics: an existing key keeps its
position and gets the new value; a new key is appended. -/
def upsert (m : List (List Char × Nat)) (k : List Char) (v : Nat) : List (List Char × Nat) :=
  match m with
  | [] => [(k, v)]
  | (k0, v0) :: rest => if k0 = k then (k0, v) :: rest else (k0, v0) :: upsert rest k v

/-- The page_map dict of _load_page_map: cleaned titles mapped to
pages, first-seen order, empty titles skipped. -/
def buildPageMap (entries : List (List Char × Nat)) : List (List Char × Nat) :=
  entries.foldl (fun m tp =>
    let t := cleanTitle tp.1
    if t.isEmpty then m else upsert m t tp.2) []

/-- context._load_page_map: "" when master.aux is absent or yields no
entries, otherwise the formatted page-map block. -/
def loadPageMap (aux : Option (List Char)) : List Char :=
  match aux with
  | none => []
  | some content =>
    let pm := buildPageMap (contentslineMatches content)
    if pm.isEmpty then []
    else
      List.intercalate ( "\n".data)
        ( "### Page Map (from last compilation)".data
          :: "Use these page numbers with `#page=N` when linking to the PDF.".data
          :: pm.map (fun tp => "- ".data ++ tp.1 ++ ": page ".data ++ pyNatStr tp.2))

/-! ## context.py — build_context

The slice of the workspace build_context reads, as a record: directory
listings are lists of entries (sorted(...) is applied exactly where the
code applies it), optional files are Option contents (none = absent;
_read_safe maps absence to ""). -/

/-- One entry of notes/latex for discover_lectures. -/
structure DirEnt where
  name : List Char
  isDir : Bool
  texContent : Option (List Char)
deriving DecidableEq, Repr

/-- A .tex candidate file (submission or explainer member). -/
structure SubTex where
  name : List Char
  content : List Char
deriving DecidableEq, Repr

/-- One entry of hw/{id}/explainers. -/
structure ExpDir where
  name : List Char
  isDir : Bool
  files : List SubTex
deriving DecidableEq, Repr

/-- One entry of the hw directory as build_context reads it. -/
structure HwDirFull where
  name : List Char
  isDir : Bool
  assignment : Option (List Char)
  submissionFiles : Option (List SubTex)
  explainerDirs : Option (List ExpDir)
deriving DecidableEq, Repr

/-- The workspace state build_context depends on. -/
structure Workspace where
  latexDirs : List DirEnt
  masterTex : Option (List Char)
  tempTex : Option (List Char)
  syllabus : Option (List Char)
  glossary : Option (List Char)
  assignmentsTex : Option (List Char)
  sessionsTex : Option (List Char)
  sessionsDirNames : Option (List (List Char))
  hwEntries : Option (List HwDirFull)
  masterAux : Option (List Char)
deriving Repr

/-- context.extract_preamble_commands: everything before
\begin{document}, or the whole input when the marker is absent. -/
def extractPreambleCommands (masterTex : List Char) : List Char :=
  match findSub ( "\\begin\x7bdocument\x7d".data) masterTex with
  | none => masterTex
  | some i => masterTex.take i

/-- context.discover_lectures: sorted latex-dir entries that are
directories named lec* with an existing name/name.tex. -/
def discoverLectures (ws : Workspace) : List (List Char × List Char) :=
  (sortByKey DirEnt.name ws.latexDirs).filterMap (fun d =>
    if d.isDir && ( "lec".data.isPrefixOf d.name) then
      d.texContent.map (fun c => (d.name, c))
    else none)

/-- context._all_lecture_metadata (the path key is not used by any of
the formatters, so the model keeps the directory name). -/
def allLectureMetadata (ws : Workspace) : List (List Char × LectureMeta) :=
  (discoverLectures ws).map (fun nc => (nc.1, extractLectureMetadata nc.2))

/-- context._format_lecture_index. -/
def formatLectureIndex (ms : List (List Char × LectureMeta)) : List Char :=
  List.intercalate ( "\n".data)
    ( "### Lecture Index".data :: ms.map (fun nm =>
      "- Lecture ".data ++ nm.2.num.getD ( "?".data) ++ " (".data
        ++ nm.2.date.getD ( "?".data) ++ "): ".data ++ nm.2.topic.getD ( "?".data)))

/-- context._format_lecture_summaries. -/
def formatLectureSummaries (ms : List (List Char × LectureMeta)) : List Char :=
  List.intercalate ( "\n".data)
    ( "### Lecture Summaries".data :: ms.flatMap (fun nm =>
      [ "\n**Lecture ".data ++ nm.2.num.getD ( "?".data) ++ ": ".data
          ++ nm.2.topic.getD ( "?".data) ++ "**".data,
        if nm.2.summary ≠ [] then nm.2.summary else "(no summary available)".data]))

/-- context._format_summaryboxes (each box truncated to 200 chars). -/
def formatSummaryboxes (ms : List (List Char × LectureMeta)) : List Char :=
  List.intercalate ( "\n".data)
    ( "### Section Summaries".data :: ms.flatMap (fun nm =>
      if nm.2.summaryboxes.isEmpty then []
      else ( "\n**Lecture ".data ++ nm.2.num.getD ( "?".data) ++ " sections:**".data)
        :: nm.2.summaryboxes.map (fun b => "- ".data ++ b.take 200)))

/-- context._list_sessions. -/
def listSessions (ws : Workspace) : List Char :=
  match ws.sessionsDirNames with
  | none => "No sessions directory found.".data
  | some names =>
    let files := sortByKey (fun n => n) (names.filter (fun n => "session-".data.isPrefixOf n))
    if files.isEmpty then "No session logs yet.".data
    else
      "### Existing Sessions\n".data
        ++ List.intercalate ( "\n".data) (files.map (fun f => "- ".data ++ f))

/-- context._list_hw_dirs. -/
def listHwDirs (ws : Workspace) : List Char :=
  match ws.hwEntries with
  | none => "No hw directory found.".data
  | some es =>
    let dirs := sortByKey (fun n => n)
      ((es.filter (fun h => h.isDir && ( "hw".data.isPrefixOf h.name))).map HwDirFull.name)
    if dirs.isEmpty then "No homework directories yet.".data
    else
      "### Homework Directories\n".data
        ++ List.intercalate ( "\n".data) (dirs.map (fun d => "- ".data ++ d ++ "/".data))

/-- Path lookup of hw/{hw_id} in the model. -/
def findHw (ws : Workspace) (hwId : List Char) : Option HwDirFull :=
  (ws.hwEntries.getD []).find? (fun h => h.name == hwId)

/-- The parts list build_context accumulates before the page-map step,
branch for branch as in the code (mode tested against "lec", "rev",
"work", "done", with everything else the default branch). -/
def buildContextPartsCore (ws : Workspace) (mode : List Char) (hwId : Option (List Char)) :
    List (List Char) :=
  let allMeta := allLectureMetadata ws
  if mode = "lec".data then
    let lectures := discoverLectures ws
    let lastTwo := if lectures.length ≥ 2 then lectures.drop (lectures.length - 2) else lectures
    ([ "### LaTeX Preamble (available commands)\n```latex\n".data
        ++ extractPreambleCommands (ws.masterTex.getD []) ++ "\n```".data,
      "### Lecture Template (temp.tex)\n```latex\n".data ++ ws.tempTex.getD []
        ++ "\n```".data]
      ++ lastTwo.map (fun nc =>
        "### Full content: ".data ++ nc.1 ++ "\n```latex\n".data ++ nc.2 ++ "\n```".data)
      ++ [formatLectureIndex allMeta]
      ++ (if (ws.syllabus.getD []) ≠ [] then
          [ "### Syllabus\n```latex\n".data ++ ws.syllabus.getD [] ++ "\n```".data]
        else []))
  else if mode = "rev".data then
    ([formatLectureSummaries allMeta, formatSummaryboxes allMeta]
      ++ (if (ws.glossary.getD []) ≠ [] then
          [ "### Glossary\n```latex\n".data ++ ws.glossary.getD [] ++ "\n```".data]
        else []))
  else if mode = "work".data then
    ((if (hwId.getD []) ≠ [] then
        let hid := hwId.getD []
        let hw := findHw ws hid
        let assignment := (hw.bind HwDirFull.assignment).getD []
        (if assignment ≠ [] then
            [ "### Assignment (".data ++ hid ++ ")\n".data ++ assignment]
          else
            [ "### Assignment (".data ++ hid ++ ")\nNo assignment.txt found for ".data
              ++ hid ++ ".".data])
        ++ (match hw with
          | some h =>
            (match h.submissionFiles with
              | some sf => (sortByKey SubTex.name sf).filterMap (fun f =>
                  if hasTexSuffix f.name then
                    some ( "### Current submission: ".data ++ f.name
                      ++ "\n```latex\n".data ++ f.content ++ "\n```".data)
                  else none)
              | none => [])
            ++ (match h.explainerDirs with
              | some eds => (sortByKey ExpDir.name eds).flatMap (fun ed =>
                  if ed.isDir then
                    (sortByKey SubTex.name ed.files).filterMap (fun f =>
                      if hasTexSuffix f.name then
                        some ( "### Explainer: ".data ++ f.name
                          ++ "\n```latex\n".data ++ f.content ++ "\n```".data)
                      else none)
                  else [])
              | none => [])
          | none => [])
      else
        [ "No homework specified. Available homework directories:".data, listHwDirs ws])
      ++ (if (ws.assignmentsTex.getD []) ≠ [] then
          [ "### Assignments Overview\n```latex\n".data ++ ws.assignmentsTex.getD []
            ++ "\n```".data]
        else [])
      ++ [formatLectureSummaries allMeta])
  else if mode = "done".data then
    ([formatLectureIndex allMeta, listSessions ws]
      ++ (if (ws.sessionsTex.getD []) ≠ [] then
          [ "### sessions.tex\n```latex\n".data ++ ws.sessionsTex.getD [] ++ "\n```".data]
        else []))
  else
    ((if (ws.syllabus.getD []) ≠ [] then
        [ "### Syllabus\n```latex\n".data ++ ws.syllabus.getD [] ++ "\n```".data]
      else [])
      ++ [formatLectureSummaries allMeta, listHwDirs ws, listSessions ws])

/-- The full parts list: the page-map block is appended last when
non-empty (in every mode). -/
def buildContextParts (ws : Workspace) (mode : List Char) (hwId : Option (List Char)) :
    List (List Char) :=
  buildContextPartsCore ws mode hwId
    ++ (if loadPageMap ws.masterAux ≠ [] then [loadPageMap ws.masterAux] else [])

/-- context.build_context: the parts joined by a blank-line separator. -/
def buildContext (ws : Workspace) (mode : List Char) (hwId : Option (List Char)) : List Char :=
  List.intercalate ( "\n\n".data) (buildContextParts ws mode hwId)

/-- A workspace with nothing in it (every source absent). -/
def emptyWs : Workspace :=
  { latexDirs := [], masterTex := none, tempTex := none, syllabus := none,
    glossary := none, assignmentsTex := none, sessionsTex := none,
    sessionsDirNames := none, hwEntries := none, masterAux := none }

/-- C9 (counterexample): in lecture-authoring mode the preamble part
and the template part are appended even though their source documents
do not exist (they render with empty bodies) — refuting "each
mode-specific part is appended only if its source document exists and
is non-empty". -/
theorem C9_counterexample :
    emptyWs.masterTex = none ∧ emptyWs.tempTex = none ∧
    (buildContextParts emptyWs ( "lec".data) none).take 2 =
      [ "### LaTeX Preamble (available commands)\n```latex\n\n```".data,
        "### Lecture Template (temp.tex)\n```latex\n\n```".data] := by
  refine ⟨rfl, rfl, ?_⟩
  decide

/-- C9 (amended): the sections of a mode are joined by a blank-line
separator; the page-map block is appended last exactly when non-empty;
parts with optional sources (here the review-mode glossary as the
representative, as well as the page map) are appended only when the
source exists and is non-empty, but the lecture-mode preamble and
template parts are appended unconditionally. -/
theorem C9_context_assembly :
    (∀ (ws : Workspace) (hwId : Option (List Char)),
      (buildContextParts ws ( "lec".data) hwId).take 2 =
        [ "### LaTeX Preamble (available commands)\n```latex\n".data
            ++ extractPreambleCommands (ws.masterTex.getD []) ++ "\n```".data,
          "### Lecture Template (temp.tex)\n```latex\n".data ++ ws.tempTex.getD []
            ++ "\n```".data]) ∧
    (∀ (ws : Workspace) (mode : List Char) (hwId : Option (List Char)),
      loadPageMap ws.masterAux ≠ [] →
      (buildContextParts ws mode hwId).getLast? = some (loadPageMap ws.masterAux)) ∧
    (∀ (ws : Workspace) (mode : List Char) (hwId : Option (List Char)),
      loadPageMap ws.masterAux = [] →
      buildContextParts ws mode hwId = buildContextPartsCore ws mode hwId) ∧
    (∀ (ws : Workspace) (hwId : Option (List Char)),
      buildContextPartsCore ws ( "rev".data) hwId =
        [formatLectureSummaries (allLectureMetadata ws),
          formatSummaryboxes (allLectureMetadata ws)]
        ++ (match ws.glossary with
          | some g => if g ≠ [] then
              [ "### Glossary\n```latex\n".data ++ g ++ "\n```".data]
            else []
          | none => [])) ∧
    (∀ (ws : Workspace) (mode : List Char) (hwId : Option (List Char)),
      buildContext ws mode hwId =
        List.intercalate ( "\n\n".data) (buildContextParts ws mode hwId)) := by
  refine ⟨?_, ?_, ?_, ?_, fun _ _ _ => rfl⟩
  · intro ws hwId
    rfl
  · intro ws mode hwId hne
    unfold buildContextParts
    rw [if_pos hne]
    simp
  · intro ws mode hwId he
    unfold buildContextParts
    rw [if_neg (by simp [he]), List.append_nil]
  · intro ws hwId
    unfold buildContextPartsCore
    rw [if_neg (by decide), if_pos rfl]
    cases hg : ws.glossary with
    | none => simp
    | some g =>
      by_cases hge : g ≠ []
      · simp [hge]
      · simp at hge
        simp [hge]

/-- A workspace whose master.aux holds one \contentsline entry
(the spec's own example, yielding the page map Compactness ↦ 12). -/
def wAuxWs : Workspace :=
  { emptyWs with
    masterAux :=
      some ( "\\contentsline \x7bsection\x7d\x7b\\numberline \x7b3\x7dCompactness\x7d\x7b12\x7d".data) }

/-- Witness for C9 at concrete workspaces: with a compiled master.aux
the page map is non-empty and is the last part; with master.aux absent
the parts equal the core parts. -/
theorem C9_context_assembly_witness :
    loadPageMap wAuxWs.masterAux ≠ [] ∧
    (buildContextParts wAuxWs ( "rev".data) none).getLast? =
      some (loadPageMap wAuxWs.masterAux) ∧
    loadPageMap emptyWs.masterAux = [] ∧
    buildContextParts emptyWs ( "rev".data) none =
      buildContextPartsCore emptyWs ( "rev".data) none :=
  ⟨by decide, C9_context_assembly.2.1 wAuxWs ( "rev".data) none (by decide), rfl,
    C9_context_assembly.2.2.1 emptyWs ( "rev".data) none rfl⟩
